import Mathlib

/-!
# runj: jail configuration rendering and the create / delete transactions

A shallow embedding of `jail/conf.go`, `cmd/runj/create.go` and
`cmd/runj/delete.go`.  Go strings are Lean strings, Go slices are lists
(`Option (List _)` where the code tests a slice against `nil`), Go pointers
that may be `nil` are `Option`s.  Calls into the operating system and into the
collaborating packages (`state`, `oci`, `mount`, `gojail`, `os/exec`) are
answered by an explicit record of outcomes and are logged in a trace of events.
-/

namespace Runj

/-! ## `path/filepath` (Go standard library, Unix) -/

namespace filepath

/-- The path separator `filepath.Separator` on Unix. -/
def Separator : Char := '/'

/-- The inner loop of the `..` case of `filepath.Clean`: the write index has
already been decremented once (dropping `removed`); it keeps decreasing while it
is above `dotdot` and the byte at the write index is not a separator.  The
output buffer is kept reversed. -/
def backtrack (dotdot : Nat) : Char → List Char → List Char
  | _, [] => []
  | removed, c :: buf =>
    if (c :: buf).length > dotdot ∧ removed ≠ Separator then backtrack dotdot c buf
    else c :: buf

/-- The main loop of `filepath.Clean` over the unread part of the path; `out` is
the reversed output buffer, `dotdot` the index where `..` must stop.  The fuel
bounds the number of iterations (every iteration reads at least one byte). -/
def cleanLoop (rooted : Bool) : Nat → List Char → List Char → Nat → List Char
  | 0, _, out, _ => out
  | _ + 1, [], out, _ => out
  | fuel + 1, c :: rest, out, dotdot =>
    if c = Separator then
      -- empty path element
      cleanLoop rooted fuel rest out dotdot
    else if c = '.' ∧ (rest = [] ∨ rest.head? = some Separator) then
      -- . element
      cleanLoop rooted fuel rest out dotdot
    else if c = '.' ∧ rest.head? = some '.' ∧
        (rest.tail = [] ∨ rest.tail.head? = some Separator) then
      -- .. element: remove to last separator
      match out with
      | last :: buf =>
        if out.length > dotdot then
          cleanLoop rooted fuel rest.tail (backtrack dotdot last buf) dotdot
        else if !rooted then
          cleanLoop rooted fuel rest.tail ('.' :: '.' :: Separator :: out) (out.length + 3)
        else
          cleanLoop rooted fuel rest.tail out dotdot
      | [] =>
        if !rooted then cleanLoop rooted fuel rest.tail ['.', '.'] 2
        else cleanLoop rooted fuel rest.tail out dotdot
    else
      -- real path element: add slash if needed, then copy the element
      let out1 :=
        if (rooted ∧ out.length ≠ 1) ∨ (!rooted ∧ out.length ≠ 0) then Separator :: out
        else out
      cleanLoop rooted fuel (rest.dropWhile (· ≠ Separator))
        ((c :: rest.takeWhile (· ≠ Separator)).reverse ++ out1) dotdot

/-- The function `filepath.Clean` on Unix (no volume names, `FromSlash` is the
identity). -/
def Clean (path : String) : String :=
  if path = "" then "."
  else
    let rooted : Bool := path.data.head? = some Separator
    let out := cleanLoop rooted (path.data.length + 1)
      (if rooted then path.data.tail else path.data)
      (if rooted then [Separator] else []) (if rooted then 1 else 0)
    -- Turn empty string into "."
    if out = [] then "." else String.mk out.reverse

/-- The function `filepath.Join` at two elements: the elements from the first
non-empty one on are joined by the separator and the result is cleaned; empty
elements only give the empty string. -/
def Join (a b : String) : String :=
  if a ≠ "" then Clean (a ++ "/" ++ b)
  else if b ≠ "" then Clean b
  else ""

end filepath

/-! ## `runtimespec/config.go` -/

namespace runtimespec

/-- The type `runtimespec.Mount` (the field `Type` is written `Type_`). -/
structure Mount where
  Destination : String
  Type_ : String
  Source : String
  Options : List String
  deriving DecidableEq, Repr

/-- The type `runtimespec.Hook`. -/
structure Hook where
  Path : String
  Args : List String
  Env : List String
  Timeout : Option Int
  deriving DecidableEq, Repr

/-- The type `runtimespec.Hooks`; a slice that is `nil` is `none`. -/
structure Hooks where
  Prestart : Option (List Hook)
  CreateRuntime : Option (List Hook)
  CreateContainer : Option (List Hook)
  StartContainer : Option (List Hook)
  Poststart : Option (List Hook)
  Poststop : Option (List Hook)
  deriving DecidableEq, Repr

/-- The type `runtimespec.Process`. -/
structure Process where
  Terminal : Bool
  Args : List String
  Env : List String
  Cwd : String
  deriving DecidableEq, Repr

/-- The type `runtimespec.Root`. -/
structure Root where
  Path : String
  deriving DecidableEq, Repr

/-- The jail options read by `create.go` as `ociConfig.Freebsd.JailOptions`. -/
structure JailOptions where
  Parent : String
  deriving DecidableEq, Repr

/-- The platform section read by `create.go` as `ociConfig.Freebsd`. -/
structure FreeBSD where
  JailOptions : JailOptions
  deriving DecidableEq, Repr

/-- The type `runtimespec.Spec`, with the fields `Hostname` and `Freebsd` that
`create.go` reads; pointers and slices that may be `nil` are options. -/
structure Spec where
  Version : String
  Process : Option Process
  Root : Option Root
  Hostname : String
  Mounts : Option (List Mount)
  Hooks : Option Hooks
  Freebsd : Option FreeBSD
  deriving DecidableEq, Repr

end runtimespec

open runtimespec

/-! ## Errors, collaborators and events -/

/-- The type `mount.Mount` of containerd, as `create.go` fills it. -/
structure mount.Mount where
  Type_ : String
  Source : String
  Options : List String
  deriving DecidableEq, Repr

/-- An operand of a format string. -/
inductive Arg where
  | str (s : String)
  | hook (h : Hook)
  | mount (m : mount.Mount)
  deriving DecidableEq, Repr

/-- Error values: those handed back by a collaborator, and those the code builds
with `errors.New`, `fmt.Errorf` (without and with a wrapped cause) and
`errors.Wrapf`; formats are kept unexpanded next to their operands. -/
inductive Error where
  | external (what : String)
  | errorsNew (text : String)
  | errorf (format : String) (args : List Arg)
  | wrapf (cause : Error) (format : String) (args : List Arg)
  deriving DecidableEq, Repr

/-- The record `state.State`. -/
structure State where
  ID : String
  JID : Int
  PID : Int
  Status : String
  Bundle : String
  deriving DecidableEq, Repr

/-- The constant `state.StatusCreated`. -/
def StatusCreated : String := "created"

/-- A value stored in the jail parameter map. -/
inductive JailParam where
  | str (s : String)
  | bool (b : Bool)
  deriving DecidableEq, Repr

/-- The calls made to the collaborators, in the order in which they are made. -/
inductive Event where
  | stateCreate (id bundle : String)
  | stateSave (s : State)
  | stateRemove (id : String)
  | stateLoad (id : String)
  | storeConfig (id bundle : String)
  | loadConfig (id : String)
  | mount (m : mount.Mount) (target : String) (ok : Bool)
  | unmountAll (target : String)
  | stat (path : String)
  | jailGetByName (name : String)
  | createChildJail (parent : String) (config : List (String × JailParam)) (ok : Bool)
  | jailCreate (config : List (String × JailParam)) (ok : Bool)
  | jailDestroy
  | execRun (path : String) (args : List String)
  | setupEntrypoint (id : String) (cwd : String) (args env : List String)
      (consoleSocket : String)
  | isRunning (id : String)
  | cleanupEntrypoint (id : String)
  | destroyJail (confPath id : String)
  | printf (format : String) (target : String) (err : Error)
  deriving DecidableEq, Repr

/-! ## `jail/conf.go` -/

/-- The inner loop of `renderFstab` over the declared options. -/
def renderOptions : String → List String → String
  | fstab, [] => fstab
  | fstab, option :: rest =>
    if option = "strictatime" then renderOptions fstab rest
    else renderOptions (fstab ++ "," ++ option) rest

/-- The body of the loop of `renderFstab`, for one mount. -/
def renderMount (root : String) (fstab : String) (mount : Mount) : String :=
  if mount.Type_ = "mqueue" then fstab
  else
    let fstab := fstab ++ mount.Source
    let fstab := fstab ++ "\t"
    let fstab := fstab ++ filepath.Join root mount.Destination
    let fstab := fstab ++ "\t"
    let fstab := fstab ++ mount.Type_
    let fstab := fstab ++ "\t"
    let fstab := fstab ++ "rw,late"
    let fstab :=
      if mount.Destination = "/dev" then fstab ++ ",ruleset=5"
      else if mount.Options.length > 0 then renderOptions fstab mount.Options
      else fstab
    fstab ++ "\t0 0\n"

/-- The function `renderFstab`: the loop over the mounts, the named result
`fstab` starting empty. -/
def renderFstab (root : String) (mounts : List Mount) : String :=
  mounts.foldl (renderMount root) ""

/-! ### `text/template` (Go standard library), the fragment `configTemplate` uses -/

namespace template

/-- A parsed template: literal text, and actions that print one field of the
data. -/
inductive Node where
  | text (s : String)
  | field (name : String)
  deriving DecidableEq, Repr

/-- Splits the input at the first left delimiter `{{`: the text before it, and
what follows it when there is one. -/
def splitAtLeftDelim : List Char → List Char × Option (List Char)
  | [] => ([], none)
  | c :: rest =>
    if c = '{' ∧ rest.head? = some '{' then ([], some rest.tail)
    else ((c :: (splitAtLeftDelim rest).1), (splitAtLeftDelim rest).2)

/-- Reads an action after its left delimiter: blanks, a dot, a field name,
blanks, the right delimiter `}}`.  Anything else is a parse error. -/
def parseAction (s : List Char) : Option (String × List Char) :=
  match s.dropWhile (· = ' ') with
  | '.' :: s1 =>
    let name := s1.takeWhile Char.isAlphanum
    match (s1.dropWhile Char.isAlphanum).dropWhile (· = ' ') with
    | '}' :: '}' :: rest => if name = [] then none else some (String.mk name, rest)
    | _ => none
  | _ => none

/-- The parser: text up to the next action, the action, and so on.  The fuel
bounds the number of actions. -/
def parseNodes : Nat → List Char → Option (List Node)
  | 0, _ => none
  | fuel + 1, s =>
    match splitAtLeftDelim s with
    | (t, none) => some [Node.text (String.mk t)]
    | (t, some rest) =>
      match parseAction rest with
      | none => none
      | some (name, rest1) =>
        match parseNodes fuel rest1 with
        | none => none
        | some nodes => some (Node.text (String.mk t) :: Node.field name :: nodes)

/-- The call `template.New(name).Parse(text)`: the parsed template, or an error. -/
def Parse (text : String) : Except Error (List Node) :=
  match parseNodes (text.data.length + 1) text.data with
  | some nodes => .ok nodes
  | none => .error (.external "template: parse error")

/-- The method `Execute`: the nodes are written to the buffer in order; a field
the data does not have stops the execution with an error, the text written so
far staying in the buffer. -/
def Execute (data : String → Option String) : List Node → String → String × Option Error
  | [], buf => (buf, none)
  | Node.text t :: rest, buf => Execute data rest (buf ++ t)
  | Node.field name :: rest, buf =>
    match data name with
    | some v => Execute data rest (buf ++ v)
    | none => (buf, some (.external "template: can't evaluate field"))

end template

/-- The constant `confName`. -/
def confName : String := "jail.conf"

/-- The constant `configTemplate`. -/
def configTemplate : String :=
  "\x7b\x7b .Name \x7d\x7d \x7b\n  allow.raw_sockets;\n  allow.mlock;\n  sysvmsg = new;\n  sysvsem = new;\n  sysvshm = new;\n\n  path = \"\x7b\x7b .Root \x7d\x7d\";\n  vnet;\n  persist;\n\x7d\n"

/-- The function `renderConfig`, returning the text and the error.  The error of
`Execute` is dropped as in the source; `stateDir` is `state.Dir`. -/
def renderConfig (stateDir : String → String) (id root : String) : String × Option Error :=
  match template.Parse configTemplate with
  | .error err => ("", some err)
  | .ok config =>
    let data : String → Option String := fun name =>
      if name = "Name" then some id
      else if name = "Root" then some root
      else if name = "Fstab" then some (filepath.Join (stateDir id) "fstab")
      else none
    ((template.Execute data config "").1, none)

/-- The function `ConfPath`. -/
def ConfPath (stateDir : String → String) (id : String) : String :=
  filepath.Join (stateDir id) confName

/-! ## `cmd/runj/create.go` -/

/-- The outcomes of the calls one run of `create` makes to its collaborators:
`mount k` answers the `k`-th call of `m.Mount`, the hook fields the `k`-th hook
of their loop, `stat` tells whether the console socket path names a socket. -/
structure CreateOutcomes where
  stateCreate : Except Error State
  storeConfig : Option Error
  loadConfig : Except Error (Option Spec)
  mount : Nat → Option Error
  stat : Except Error Bool
  jailGetByName : Option Error
  createChildJail : Except Error Int
  jailCreate : Except Error Int
  createRuntimeHook : Nat → Option Error
  createContainerHook : Nat → Option Error
  setupEntrypoint : Except Error Int
  save : Option Error

/-- The deferred functions of `RunE`, in the order of the source: the one that
saves or removes the state record, the unmount of a mounted target, the
destruction of the created jail. -/
inductive Deferred where
  | finalize (id : String)
  | unmountOnFailure (target : String)
  | destroyOnFailure
  deriving DecidableEq, Repr

/-- The variables of one run of `RunE`: the named result `err`, the record `s`,
whether the run is panicking, the events so far and the deferred functions, the
last registered first. -/
structure Frame where
  err : Option Error
  s : State
  panicking : Bool
  trace : List Event
  defers : List Deferred
  deriving DecidableEq, Repr

/-- Records a call. -/
def Frame.log (f : Frame) (e : Event) : Frame := { f with trace := f.trace ++ [e] }

/-- The statement `return e`: the named result is set. -/
def Frame.ret (f : Frame) (e : Error) : Frame := { f with err := some e }

/-- The statement `defer`. -/
def Frame.defer (f : Frame) (d : Deferred) : Frame := { f with defers := d :: f.defers }

/-- A run-time panic (nil dereference, index out of range). -/
def Frame.panic (f : Frame) : Frame := { f with panicking := true }

namespace createCommand

/-- The computation of `rootPath` in `create.go`; `none` is the panic of an index
out of range at `rootPath[0]`. -/
def rootPath (bundle : String) (ociConfig : Option Spec) : Option String :=
  let rootPath := filepath.Join bundle "root"
  match ociConfig with
  | none => some rootPath
  | some cfg =>
    match cfg.Root with
    | none => some rootPath
    | some root =>
      if root.Path ≠ "" then
        let rootPath := root.Path
        match rootPath.data.get? 0 with
        | none => none
        | some c =>
          if c ≠ filepath.Separator then some (filepath.Join bundle rootPath)
          else some rootPath
      else some rootPath

/-- The loop that sets up the mounts, from the `k`-th call of `m.Mount` on. -/
def setupMounts (w : CreateOutcomes) (rootPath : String) :
    List Mount → Nat → Frame → Except Frame Frame
  | [], _, f => .ok f
  | sm :: rest, k, f =>
    let m : mount.Mount := { Type_ := sm.Type_, Source := sm.Source, Options := sm.Options }
    let m := if sm.Destination = "/dev" then { m with Options := m.Options ++ ["ruleset=5"] }
      else m
    let target := filepath.Join rootPath sm.Destination
    match w.mount k with
    | some err =>
      .error ((f.log (.mount m target false)).ret (.wrapf err "failed to mount %v" [.mount m]))
    | none =>
      -- unmount on create failure
      setupMounts w rootPath rest (k + 1)
        ((f.log (.mount m target true)).defer (.unmountOnFailure target))

/-- The console socket validation. -/
def validateConsole (w : CreateOutcomes) (terminal : Bool) (consoleSocket : String)
    (f : Frame) : Except Frame Frame :=
  if terminal then
    if consoleSocket = "" then
      .error (f.ret (.errorsNew "console-socket is required when Process.Terminal is true"))
    else
      match w.stat with
      | .error err =>
        .error ((f.log (.stat consoleSocket)).ret
          (.wrapf err "failed to stat console socket %q: %w" [.str consoleSocket]))
      | .ok isSocket =>
        if !isSocket then
          .error ((f.log (.stat consoleSocket)).ret
            (.errorf "console-socket %q is not a socket" [.str consoleSocket]))
        else .ok (f.log (.stat consoleSocket))
  else if consoleSocket ≠ "" then
    .error (f.ret (.errorsNew "console-socket provided but Process.Terminal is false"))
  else .ok f

/-- The jail parameter map. -/
def jailconfig (id rootPath hostname : String) : List (String × JailParam) :=
  [("name", .str id), ("path", .str rootPath), ("persist", .bool true),
   ("allow.raw_sockets", .bool true), ("host.hostname", .str hostname),
   ("ip4", .str "inherit"), ("ip4.saddrsel", .bool false),
   ("ip6", .str "inherit"), ("ip6.saddrsel", .bool false)]

/-- The creation of the jail, as a child of the named parent or at top level,
the registration of its destruction and the assignment of `s.JID`. -/
def createJail (w : CreateOutcomes) (id rootPath : String) (cfg : Spec) (f : Frame) :
    Except Frame Frame :=
  let config := jailconfig id rootPath cfg.Hostname
  let topLevel : Except Frame (Frame × Int) :=
    match w.jailCreate with
    | .error err => .ok ({ f.log (.jailCreate config false) with err := some err }, 0)
    | .ok jid => .ok ({ f.log (.jailCreate config true) with err := none }, jid)
  let child (parent : String) : Except Frame (Frame × Int) :=
    match w.jailGetByName with
    | some err => .error ((f.log (.jailGetByName parent)).ret err)
    | none =>
      match w.createChildJail with
      | .error err =>
        .error (((f.log (.jailGetByName parent)).log
          (.createChildJail parent config false)).ret err)
      | .ok jid =>
        .ok (((f.log (.jailGetByName parent)).log (.createChildJail parent config true)), jid)
  let created : Except Frame (Frame × Int) :=
    match cfg.Freebsd with
    | some freebsd =>
      if freebsd.JailOptions.Parent ≠ "" then child freebsd.JailOptions.Parent else topLevel
    | none => topLevel
  match created with
  | .error f1 => .error f1
  | .ok (f1, jid) =>
    match f1.err with
    | some err => .error (f1.ret (.wrapf err "failed creating jail: %w" []))
    | none => .ok { f1.defer .destroyOnFailure with s := { f1.s with JID := jid } }

/-- The loop over the `createRuntime` hooks, from the `k`-th on. -/
def runCreateRuntime (w : CreateOutcomes) : List Hook → Nat → Frame → Except Frame Frame
  | [], _, f => .ok f
  | hook :: rest, k, f =>
    match w.createRuntimeHook k with
    | some _ =>
      .error ((f.log (.execRun hook.Path hook.Args)).ret
        (.errorf "failed executing createruntime hook: %+v" [.hook hook]))
    | none => runCreateRuntime w rest (k + 1) (f.log (.execRun hook.Path hook.Args))

/-- The loop over the `createContainer` hooks, from the `k`-th on. -/
def runCreateContainer (w : CreateOutcomes) (id : String) :
    List Hook → Nat → Frame → Except Frame Frame
  | [], _, f => .ok f
  | hook :: rest, k, f =>
    let args := [id, hook.Path] ++ hook.Args
    match w.createContainerHook k with
    | some _ =>
      .error ((f.log (.execRun "/usr/sbin/jexec" args)).ret
        (.errorf "failed executing createcontainer hook: %+v" [.hook hook]))
    | none => runCreateContainer w id rest (k + 1) (f.log (.execRun "/usr/sbin/jexec" args))

/-- The two hook phases with their guards. -/
def runHooks (w : CreateOutcomes) (id : String) (cfg : Spec) (f : Frame) :
    Except Frame Frame :=
  let afterRuntime : Except Frame Frame :=
    match cfg.Hooks with
    | some hooks =>
      match hooks.CreateRuntime with
      | some createRuntime => runCreateRuntime w createRuntime 0 f
      | none => .ok f
    | none => .ok f
  match afterRuntime with
  | .error f1 => .error f1
  | .ok f1 =>
    match cfg.Hooks with
    | some hooks =>
      match hooks.CreateRuntime with
      | some _ => runCreateContainer w id (hooks.CreateContainer.getD []) 0 f1
      | none => .ok f1
    | none => .ok f1

/-- The launch of the entrypoint helper and the assignment of `s.PID`. -/
def setupEntrypoint (w : CreateOutcomes) (id consoleSocket : String) (process : Process)
    (f : Frame) : Except Frame Frame :=
  let f1 := f.log (.setupEntrypoint id process.Cwd process.Args process.Env consoleSocket)
  match w.setupEntrypoint with
  | .error err => .error (f1.ret err)
  | .ok pid => .ok { f1 with err := none, s := { f1.s with PID := pid } }

/-- The statements of `RunE` after the mounts, for a loaded specification. -/
def afterMounts (w : CreateOutcomes) (id consoleSocket rootPath : String) (cfg : Spec)
    (f1 : Frame) : Except Frame Frame :=
  match cfg.Process with
  | none => .error f1.panic
  | some process =>
    match validateConsole w process.Terminal consoleSocket f1 with
    | .error f2 => .error f2
    | .ok f2 =>
      match createJail w id rootPath cfg f2 with
      | .error f3 => .error f3
      | .ok f3 =>
        match runHooks w id cfg f3 with
        | .error f4 => .error f4
        | .ok f4 => setupEntrypoint w id consoleSocket process f4

/-- The statements of `RunE` from the mounts on, for a loaded specification. -/
def fromMounts (w : CreateOutcomes) (id consoleSocket rootPath : String) (cfg : Spec)
    (f : Frame) : Except Frame Frame :=
  let mounted : Except Frame Frame :=
    match cfg.Mounts with
    | some mounts => setupMounts w rootPath mounts 0 f
    | none => .ok f
  match mounted with
  | .error f1 => .error f1
  | .ok f1 => afterMounts w id consoleSocket rootPath cfg f1

/-- The body of `RunE` up to its `return`; both results are the frame at the
exit, `.error` for an early return or a panic. -/
def body (w : CreateOutcomes) (id bundle consoleSocket : String) (f : Frame) :
    Except Frame Frame :=
  match w.stateCreate with
  | .error err => .error ((f.log (.stateCreate id bundle)).ret err)
  | .ok s =>
    let f1 := { (f.log (.stateCreate id bundle)).defer (.finalize id) with s := s }
    match w.storeConfig with
    | some err => .error ((f1.log (.storeConfig id bundle)).ret err)
    | none =>
      let f2 := (f1.log (.storeConfig id bundle)).log (.loadConfig id)
      match w.loadConfig with
      | .error err => .error (f2.ret err)
      | .ok ociConfig =>
        match rootPath bundle ociConfig with
        | none => .error f2.panic
        | some rootPath =>
          match ociConfig with
          | none => .error f2.panic
          | some cfg => fromMounts w id consoleSocket rootPath cfg f2

/-- One deferred function, run at the exit. -/
def runDeferred (w : CreateOutcomes) (f : Frame) : Deferred → Frame
  | .finalize id =>
    match f.err with
    | none =>
      let s := { f.s with Status := StatusCreated }
      { f with s := s, err := w.save, trace := f.trace ++ [.stateSave s] }
    | some _ => f.log (.stateRemove id)
  | .unmountOnFailure target =>
    match f.err with
    | some _ => f.log (.unmountAll target)
    | none => f
  | .destroyOnFailure =>
    match f.err with
    | some _ => f.log .jailDestroy
    | none => f

/-- The deferred functions run last registered first. -/
def runDefers (w : CreateOutcomes) : List Deferred → Frame → Frame
  | [], f => f
  | d :: rest, f => runDefers w rest (runDeferred w f d)

/-- The frame a run starts from. -/
def start : Frame :=
  { err := none, s := ⟨"", 0, 0, "", ""⟩, panicking := false, trace := [], defers := [] }

/-- The frame at the exit of the body, whichever way it was left. -/
def exitFrame : Except Frame Frame → Frame
  | .error f => f
  | .ok f => f

/-- The function `RunE` of `create`: the body, then the deferred functions.  The
result holds the returned error, whether the run ended in a panic, and the trace. -/
def RunE (w : CreateOutcomes) (id bundle consoleSocket : String) : Frame :=
  let f := exitFrame (body w id bundle consoleSocket start)
  runDefers w f.defers f

end createCommand

/-! ## `cmd/runj/delete.go` -/

/-- The outcomes of the calls one run of `delete` makes to its collaborators:
`unmountAll k` answers the `k`-th call of `mount.UnmountAll`, `statConf` the
`os.Stat` of the jail configuration; `stateDir` is `state.Dir`. -/
structure DeleteOutcomes where
  stateDir : String → String
  isRunning : Except Error Bool
  cleanupEntrypoint : Option Error
  statConf : Option Error
  destroyJail : Option Error
  stateLoad : Except Error State
  loadConfig : Except Error (Option Spec)
  unmountAll : Nat → Option Error
  stateRemove : Option Error

/-- What a run of `delete` gives: the returned error, whether it ended in a
panic, and the calls made. -/
structure DeleteResult where
  err : Option Error
  panicking : Bool
  trace : List Event
  deriving DecidableEq, Repr

namespace deleteCommand

/-- The computation of `rootPath` in `delete.go`; `none` is the panic of an index
out of range at `rootPath[0]`. -/
def rootPath (bundle : String) (ociConfig : Option Spec) : Option String :=
  let rootPath := filepath.Join bundle "root"
  match ociConfig with
  | none => some rootPath
  | some cfg =>
    match cfg.Root with
    | none => some rootPath
    | some root =>
      if root.Path ≠ "" then
        let rootPath := root.Path
        match rootPath.data.get? 0 with
        | none => none
        | some c =>
          if c ≠ filepath.Separator then some (filepath.Join bundle rootPath)
          else some rootPath
      else some rootPath

/-- The unmount loop, from the `k`-th call of `mount.UnmountAll` on; it carries
the variable `failedUnmount` and the trace. -/
def unmountLoop (w : DeleteOutcomes) (rootPath : String) :
    List Mount → Nat → Option Error → List Event → Option Error × List Event
  | [], _, failedUnmount, trace => (failedUnmount, trace)
  | sm :: rest, k, failedUnmount, trace =>
    let target := filepath.Join rootPath sm.Destination
    match w.unmountAll k with
    | some err =>
      unmountLoop w rootPath rest (k + 1) (some err)
        (trace ++ [.unmountAll target, .printf "failed to unmount %s: %+v\n" target err])
    | none => unmountLoop w rootPath rest (k + 1) failedUnmount (trace ++ [.unmountAll target])

/-- The statements of `RunE` from the unmount loop on. -/
def fromUnmounts (w : DeleteOutcomes) (id rootPath : String) (cfg : Spec)
    (trace : List Event) : DeleteResult :=
  let drained : Option Error × List Event :=
    match cfg.Mounts with
    | some mounts => unmountLoop w rootPath mounts 0 none trace
    | none => (none, trace)
  match drained.1 with
  | some failedUnmount => ⟨some failedUnmount, false, drained.2⟩
  | none => ⟨w.stateRemove, false, drained.2 ++ [.stateRemove id]⟩

/-- The function `RunE` of `delete`. -/
def RunE (w : DeleteOutcomes) (id : String) : DeleteResult :=
  let t1 : List Event := [.isRunning id]
  match w.isRunning with
  | .error err =>
    ⟨some (.wrapf err "delete: failed to determine if jail is running: %w" []), false, t1⟩
  | .ok running =>
    if running then ⟨some (.errorf "delete: jail %s is not stopped" [.str id]), false, t1⟩
    else
      let t2 := t1 ++ [.cleanupEntrypoint id]
      match w.cleanupEntrypoint with
      | some err =>
        ⟨some (.wrapf err "delete: failed to find entrypoint process: %w" []), false, t2⟩
      | none =>
        let confPath := ConfPath w.stateDir id
        let t3 := t2 ++ [.stat confPath]
        match w.statConf with
        | some _ => ⟨some (.errorsNew "invalid jail id provided"), false, t3⟩
        | none =>
          let t4 := t3 ++ [.destroyJail confPath id]
          match w.destroyJail with
          | some err => ⟨some err, false, t4⟩
          | none =>
            let t5 := t4 ++ [.stateLoad id]
            match w.stateLoad with
            | .error err => ⟨some err, false, t5⟩
            | .ok runjstate =>
              let bundle := runjstate.Bundle
              let t6 := t5 ++ [.loadConfig id]
              match w.loadConfig with
              | .error err => ⟨some err, false, t6⟩
              | .ok ociConfig =>
                match rootPath bundle ociConfig with
                | none => ⟨none, true, t6⟩
                | some rootPath =>
                  match ociConfig with
                  | none => ⟨none, true, t6⟩
                  | some cfg => fromUnmounts w id rootPath cfg t6

end deleteCommand

/-! ## Definitions used to state the properties -/

/-- Number of newline characters of a text: its newline-terminated lines. -/
def newlines (s : String) : Nat := s.data.count '\n'

/-- The effective root in the words of the specification: the `root`
subdirectory of the bundle when no root or an empty root path is declared, the
declared path itself when it begins with the path separator, the declared path
joined to the bundle otherwise. -/
def effectiveRootSpec (bundle : String) (declared : Option Root) : String :=
  match declared with
  | none => filepath.Join bundle "root"
  | some root =>
    if root.Path = "" then filepath.Join bundle "root"
    else if root.Path.data.head? = some '/' then root.Path
    else filepath.Join bundle root.Path

/-- The calls of `m.Mount` in a trace, in order, each with its target and whether
it succeeded. -/
def mountCalls : List Event → List (mount.Mount × String × Bool)
  | [] => []
  | .mount m target ok :: rest => (m, target, ok) :: mountCalls rest
  | _ :: rest => mountCalls rest

/-- The targets of the calls of `mount.UnmountAll` in a trace, in order. -/
def unmountCalls : List Event → List String
  | [] => []
  | .unmountAll target :: rest => target :: unmountCalls rest
  | _ :: rest => unmountCalls rest

/-- Whether an event is the creation of a jail (attempted or done). -/
def isJailCreation : Event → Bool
  | .jailCreate _ _ => true
  | .createChildJail _ _ _ => true
  | _ => false

/-- The commands run through `os/exec` in a trace, in order. -/
def execCalls : List Event → List (String × List String)
  | [] => []
  | .execRun path args :: rest => (path, args) :: execCalls rest
  | _ :: rest => execCalls rest

/-- The mount `create` performs for a declared mount: declared type, source and
options, `ruleset=5` added after them when the destination is `/dev`. -/
def mountOf (sm : Mount) : mount.Mount :=
  { Type_ := sm.Type_, Source := sm.Source,
    Options := if sm.Destination = "/dev" then sm.Options ++ ["ruleset=5"] else sm.Options }

/-- The targets of the calls of `m.Mount` that succeeded, in order. -/
def appliedMounts : List Event → List String
  | [] => []
  | .mount _ target true :: rest => target :: appliedMounts rest
  | _ :: rest => appliedMounts rest

/-- An inconsistent console request: a terminal is asked for and the socket path
is empty or does not name an existing socket, or no terminal is asked for and a
socket path is given. -/
def consoleInconsistent (terminal : Bool) (consoleSocket : String) (stat : Except Error Bool) :
    Bool :=
  if terminal then
    consoleSocket = "" ||
      (match stat with
        | .ok true => false
        | _ => true)
  else consoleSocket ≠ ""

/-- The call a deferred function makes when the run has failed. -/
def compensation : Deferred → Event
  | .finalize id => .stateRemove id
  | .unmountOnFailure target => .unmountAll target
  | .destroyOnFailure => .jailDestroy

/-- The declared mounts of a specification. -/
def declaredMounts (cfg : Spec) : List Mount :=
  match cfg.Mounts with
  | some mounts => mounts
  | none => []

/-- The event of the call of `m.Mount` that `create` makes for a declared mount. -/
def mountEvent (rootPath : String) (ok : Bool) (sm : Mount) : Event :=
  .mount (mountOf sm) (filepath.Join rootPath sm.Destination) ok

/-- The target of a declared mount under a root. -/
def targetOf (rootPath : String) (sm : Mount) : String :=
  filepath.Join rootPath sm.Destination

/-! ## Concrete runs -/

/-- Outcomes in which every collaborator succeeds, for a given loaded
specification. -/
def succeedWith (cfg : Spec) : CreateOutcomes :=
  { stateCreate := .ok ⟨"c1", 0, 0, "", "/bundle"⟩
    storeConfig := none
    loadConfig := .ok (some cfg)
    mount := fun _ => none
    stat := .ok true
    jailGetByName := none
    createChildJail := .ok 7
    jailCreate := .ok 7
    createRuntimeHook := fun _ => none
    createContainerHook := fun _ => none
    setupEntrypoint := .ok 4242
    save := none }

/-- A specification with the devfs mount on `/dev`, the given terminal flag and
hooks. -/
def devSpec (terminal : Bool) (hooks : Option Hooks) : Spec :=
  { Version := "1.0.2"
    Process := some ⟨terminal, ["/bin/sh"], [], "/"⟩
    Root := some ⟨"/bundle/root"⟩
    Hostname := "c1"
    Mounts := some [⟨"/dev", "devfs", "devfs", []⟩]
    Hooks := hooks
    Freebsd := none }

/-- Hooks that declare one `createContainer` hook and no `createRuntime` hooks. -/
def containerHookOnly : Hooks :=
  { Prestart := none, CreateRuntime := none,
    CreateContainer := some [⟨"/bin/true", [], [], none⟩],
    StartContainer := none, Poststart := none, Poststop := none }

/-- The outcomes of `succeedWith` for the devfs specification without terminal,
except that the final save of the record fails. -/
def saveFails : CreateOutcomes :=
  { succeedWith (devSpec false none) with save := some (.external "save failed") }

/-- Hooks as `containerHookOnly`, with an empty but non-nil `createRuntime` list. -/
def containerHookEmptyRuntime : Hooks :=
  { containerHookOnly with CreateRuntime := some [] }

/-- A specification with two mounts, devfs on `/dev` and tmpfs on `/tmp`, no
declared root, no terminal. -/
def twoMountSpec : Spec :=
  { Version := "1.0.2"
    Process := some ⟨false, ["/bin/sh"], [], "/"⟩
    Root := none
    Hostname := "c1"
    Mounts := some [⟨"/dev", "devfs", "devfs", ["ro"]⟩, ⟨"/tmp", "tmpfs", "tmpfs", ["nosuid"]⟩]
    Hooks := none
    Freebsd := none }

/-- Outcomes for `twoMountSpec` in which the second mount fails. -/
def secondMountFails : CreateOutcomes :=
  { succeedWith twoMountSpec with
    mount := fun k => if k = 1 then some (.external "mount failed") else none }

/-- Outcomes of a run of `delete` for a loaded specification: every step up to
the unmounts succeeds, and the unmount of index `k` fails when `failing k`. -/
def deleteOutcomes (cfg : Spec) (failing : Nat → Bool) : DeleteOutcomes :=
  { stateDir := fun id => "/var/lib/runj/jails/" ++ id
    isRunning := .ok false
    cleanupEntrypoint := none
    statConf := none
    destroyJail := none
    stateLoad := .ok ⟨"c1", 7, 4242, "created", "/bundle"⟩
    loadConfig := .ok (some cfg)
    unmountAll := fun k => if failing k then some (.external "unmount failed") else none
    stateRemove := none }

/-! ## `cmd/runj-entrypoint/main.go` -/

/-- The calls the entrypoint helper makes, in the order in which it makes them;
the calls on the fifo carry whether they succeeded, the calls into the jail
library the value they returned. -/
inductive Action where
  | getenv (name : String)
  | unsetenv (name : String)
  | atoi (s : String)
  | newFile (fd : Int)
  | newPty
  | sendFd (ptyName : String)
  | closePty
  | closeSocket
  | openSlave (slavePath : String)
  | setsid
  | ioctlTty (fd : Int)
  | dup2 (fd : Int) (i : Nat)
  | openFifo (fifoPath : String) (ok : Bool)
  | writeFifo (fd : Int) (ok : Bool)
  | jailGetid (name : String) (ret : Int)
  | free
  | jailAttach (jid : Int) (ret : Int)
  | chdir (dir : String)
  | lookPath (command : String)
  | exec (cmdpath : String) (argv : List String)
  deriving DecidableEq, Repr

/-- How a run of the helper ends: `_main` returns a status and an error, which
`main` prints and exits with, or the process image is replaced by `unix.Exec`,
which then does not return. -/
inductive Exit where
  | status (code : Int) (err : Option Error)
  | replaced (cmdpath : String) (argv : List String)
  deriving DecidableEq, Repr

/-- The environment and the outcomes of the calls of one run of the helper:
the two environment variables, the results of `strconv.Atoi`, `console.NewPty`
(name of the pty and path of the slave), `SendFd`, the calls of `dupStdio`, the
calls on the fifo, the values returned by `jail_getid` and `jail_attach` (-1 on
failure), and the results of `os.Chdir`, `exec.LookPath` and `unix.Exec` (`none`
when the process image is replaced). -/
structure EntrypointOutcomes where
  consoleSocketEnv : String
  atoi : Except Error Int
  newPty : Except Error (String × String)
  sendFd : Option Error
  openSlave : Except Error Int
  setsid : Option Error
  ioctlFails : Bool
  dup2 : Nat → Option Error
  openFifo : Except Error Int
  writeFifo : Option Error
  jailGetid : Int
  jailAttach : Int
  cwdEnv : String
  chdir : Option Error
  lookPath : Except Error String
  exec : Option Error

namespace entrypoint

/-- The error `usage`. -/
def usage : Error :=
  .errorsNew "usage: runj-entrypoint JAIL-ID FIFO-PATH PROGRAM [ARGS...]"

/-- The constant `consoleSocketEnv`. -/
def consoleSocketEnv : String := "__RUNJ_CONSOLE_SOCKET"

/-- The constant `skipExecFifo`: the exec fifo sync procedure should be skipped. -/
def skipExecFifo : String := "-"

/-- The loop of `dupStdio` over the descriptors 0, 1, 2. -/
def dupLoop (w : EntrypointOutcomes) (fd : Int) :
    List Nat → List Action → List Action × Option Error
  | [], t => (t, none)
  | i :: rest, t =>
    match w.dup2 i with
    | some err => (t ++ [.dup2 fd i], some err)
    | none => dupLoop w fd rest (t ++ [.dup2 fd i])

/-- The function `dupStdio`: the calls added to the trace and the returned
error. -/
def dupStdio (w : EntrypointOutcomes) (slavePath : String) (t : List Action) :
    List Action × Option Error :=
  match w.openSlave with
  | .error err => (t ++ [.openSlave slavePath], some (.wrapf err "open" [.str slavePath]))
  | .ok fd =>
    match w.setsid with
    | some err => (t ++ [.openSlave slavePath, .setsid], some err)
    | none =>
      if w.ioctlFails then
        (t ++ [.openSlave slavePath, .setsid, .ioctlTty fd],
          some (.errorf "Unable to set controlling tty" []))
      else dupLoop w fd [0, 1, 2] (t ++ [.openSlave slavePath, .setsid, .ioctlTty fd])

/-- The function `setupConsole`: its calls and the returned error; the deferred
`pty.Close` and `socket.Close` run at every return after their registration. -/
def setupConsole (w : EntrypointOutcomes) : List Action × Option Error :=
  if w.consoleSocketEnv = "" then ([.getenv consoleSocketEnv], none)
  else
    match w.atoi with
    | .error err =>
      ([.getenv consoleSocketEnv, .unsetenv consoleSocketEnv, .atoi w.consoleSocketEnv],
        some (.wrapf err "console: bad socket fd: %w" []))
    | .ok socketFd =>
      match w.newPty with
      | .error err =>
        ([.getenv consoleSocketEnv, .unsetenv consoleSocketEnv, .atoi w.consoleSocketEnv,
          .newFile socketFd, .newPty, .closeSocket], some err)
      | .ok (ptyName, slavePath) =>
        match w.sendFd with
        | some err =>
          ([.getenv consoleSocketEnv, .unsetenv consoleSocketEnv, .atoi w.consoleSocketEnv,
            .newFile socketFd, .newPty, .sendFd ptyName, .closePty, .closeSocket], some err)
        | none =>
          ((dupStdio w slavePath
              [.getenv consoleSocketEnv, .unsetenv consoleSocketEnv, .atoi w.consoleSocketEnv,
                .newFile socketFd, .newPty, .sendFd ptyName]).1 ++ [.closePty, .closeSocket],
            (dupStdio w slavePath
              [.getenv consoleSocketEnv, .unsetenv consoleSocketEnv, .atoi w.consoleSocketEnv,
                .newFile socketFd, .newPty, .sendFd ptyName]).2)

/-- The statements of `_main` after the fifo: the jail id is resolved and the
process attached (both results are dropped), the working directory restored,
the program looked up and executed. -/
def enterJail (w : EntrypointOutcomes) (jid command : String) (argv : List String)
    (t : List Action) : List Action × Exit :=
  let t1 := t ++ [.jailGetid jid w.jailGetid, .free, .jailAttach w.jailGetid w.jailAttach,
    .getenv "_RUNJENTRYPOINTCWD", .unsetenv "_RUNJENTRYPOINTCWD"]
  let cwd := if w.cwdEnv = "" then "/" else w.cwdEnv
  match w.chdir with
  | some err =>
    (t1 ++ [.chdir cwd], .status 5 (some (.wrapf err "could not change into: %s, %w" [])))
  | none =>
    match w.lookPath with
    | .error err =>
      (t1 ++ [.chdir cwd, .lookPath command],
        .status 6 (some (.wrapf err "Could not find start command %w" [])))
    | .ok cmdpath =>
      match w.exec with
      | some err =>
        (t1 ++ [.chdir cwd, .lookPath command, .exec cmdpath (command :: argv)],
          .status 6 (some (.wrapf err "failed to exec: %w" [])))
      | none =>
        (t1 ++ [.chdir cwd, .lookPath command, .exec cmdpath (command :: argv)],
          .replaced cmdpath (command :: argv))

/-- The statements of `_main` on the fifo, and what follows them. -/
def syncFifo (w : EntrypointOutcomes) (jid fifoPath command : String) (argv : List String)
    (t : List Action) : List Action × Exit :=
  if fifoPath ≠ skipExecFifo then
    -- Block until `runj start` is invoked
    match w.openFifo with
    | .error err =>
      (t ++ [.openFifo fifoPath false], .status 3 (some (.wrapf err "failed to open fifo: %w" [])))
    | .ok fifofd =>
      match w.writeFifo with
      | some err =>
        (t ++ [.openFifo fifoPath true, .writeFifo fifofd false],
          .status 4 (some (.wrapf err "failed to write to fifo: %w" [])))
      | none =>
        enterJail w jid command argv (t ++ [.openFifo fifoPath true, .writeFifo fifofd true])
  else enterJail w jid command argv t

/-- The function `_main` on the argument vector `os.Args`: fewer than four
entries give the status 1. -/
def _main (w : EntrypointOutcomes) : List String → List Action × Exit
  | _ :: jid :: fifoPath :: command :: argv =>
    match (setupConsole w).2 with
    | some err => ((setupConsole w).1, .status 2 (some err))
    | none => syncFifo w jid fifoPath command argv (setupConsole w).1
  | _ => ([], .status 1 (some usage))

end entrypoint

/-- Calls that are part of the console setup. -/
def isConsole : Action → Bool
  | .getenv name => name = entrypoint.consoleSocketEnv
  | .unsetenv name => name = entrypoint.consoleSocketEnv
  | .atoi _ => true
  | .newFile _ => true
  | .newPty => true
  | .sendFd _ => true
  | .closePty => true
  | .closeSocket => true
  | .openSlave _ => true
  | .setsid => true
  | .ioctlTty _ => true
  | .dup2 _ _ => true
  | _ => false

/-- Calls on the fifo: its opening and the write of the readiness byte. -/
def isFifo : Action → Bool
  | .openFifo _ _ => true
  | .writeFifo _ _ => true
  | _ => false

/-- Calls that attach to the jail, change directory or replace the process
image. -/
def isCommit : Action → Bool
  | .jailAttach _ _ => true
  | .chdir _ => true
  | .exec _ _ => true
  | _ => false

/-- Outcomes of a helper run without console in which the jail cannot be
resolved and the attach fails, every other call succeeding. -/
def attachFails : EntrypointOutcomes :=
  { consoleSocketEnv := ""
    atoi := .ok 3
    newPty := .ok ("/dev/pts/1", "/dev/pts/1")
    sendFd := none
    openSlave := .ok 5
    setsid := none
    ioctlFails := false
    dup2 := fun _ => none
    openFifo := .ok 4
    writeFifo := none
    jailGetid := -1
    jailAttach := -1
    cwdEnv := ""
    chdir := none
    lookPath := .ok "/bin/sh"
    exec := none }

/-- Outcomes of a run of `delete` on a container that is running. -/
def runningOutcomes : DeleteOutcomes :=
  { deleteOutcomes twoMountSpec (fun _ => false) with isRunning := .ok true }

/-- Outcomes of a helper run without console, with a fifo, in which every call
succeeds. -/
def readyRun : EntrypointOutcomes :=
  { attachFails with jailGetid := 2, jailAttach := 0 }

/-! ## The condition of the system around `create` and `delete` -/

/-- Modelled from the spec: the artifacts kept in the storage of a container id
(the state directory itself, the specification copy, the rendered jail
configuration, the rendered mount table, the exec fifo, the state record). -/
inductive Artifact where
  | stateDir
  | specCopy
  | jailConf
  | fstab
  | execFifo
  | record
  deriving DecidableEq, Repr

/-- Modelled from the spec: the condition a container leaves on the system, the
artifacts on disk by container id, the mounted targets and the jails by name. -/
structure World where
  artifacts : List (String × Artifact)
  mounts : List String
  jails : List String
  deriving DecidableEq, Repr

/-- Modelled from the spec: the effect of a successful call of a collaborator
(packages `state`, `oci`, `mount`, `gojail` and `jail.SetupEntrypoint`,
`jail.DestroyJail`, none of them among the sources) in a run for the container
`id`: `state.Create` allocates the state directory, `oci.StoreConfig` writes the
specification copy, `jail.SetupEntrypoint` creates the exec fifo, `Save` writes
the record, `state.Remove` deletes the whole storage of the id; mounting and
unmounting add and remove the target; creating and destroying the jail add and
remove the jail named `id`.  No call writes the jail configuration: only
`jail.CreateConfig` does, and neither command calls it. -/
def effect (id : String) (world : World) : Event → World
  | .stateCreate _ _ => { world with artifacts := world.artifacts ++ [(id, .stateDir)] }
  | .storeConfig _ _ => { world with artifacts := world.artifacts ++ [(id, .specCopy)] }
  | .setupEntrypoint _ _ _ _ _ =>
    { world with artifacts := world.artifacts ++ [(id, .execFifo)] }
  | .stateSave _ => { world with artifacts := world.artifacts ++ [(id, .record)] }
  | .stateRemove _ => { world with artifacts := world.artifacts.filter (fun a => a.1 ≠ id) }
  | .mount _ target true => { world with mounts := world.mounts ++ [target] }
  | .unmountAll target => { world with mounts := world.mounts.filter (fun t => t ≠ target) }
  | .jailCreate _ true => { world with jails := world.jails ++ [id] }
  | .createChildJail _ _ true => { world with jails := world.jails ++ [id] }
  | .jailDestroy => { world with jails := world.jails.filter (fun j => j ≠ id) }
  | .destroyJail _ _ => { world with jails := world.jails.filter (fun j => j ≠ id) }
  | _ => world

/-- The condition after the calls of a trace, all of them successful. -/
def after (id : String) (world : World) (trace : List Event) : World :=
  trace.foldl (effect id) world

/-- The condition before any container exists. -/
def emptyWorld : World := ⟨[], [], []⟩

/-- Outcomes of a run of `delete` for a stopped container in a given condition
of the system: `os.Stat` of the jail configuration succeeds exactly when the
artifact exists, every other call succeeds. -/
def deleteIn (world : World) (id : String) (st : State) (cfg : Spec) : DeleteOutcomes :=
  { stateDir := fun id => "/var/lib/runj/jails/" ++ id
    isRunning := .ok false
    cleanupEntrypoint := none
    statConf :=
      if (id, Artifact.jailConf) ∈ world.artifacts then none
      else some (.external "stat: no such file or directory")
    destroyJail := none
    stateLoad := .ok st
    loadConfig := .ok (some cfg)
    unmountAll := fun _ => none
    stateRemove := none }

/-- The condition left by the successful `create c1 /bundle` of the devfs
specification, started from the empty condition. -/
def createdWorld : World :=
  after "c1" emptyWorld
    (createCommand.RunE (succeedWith (devSpec false none)) "c1" "/bundle" "").trace

/-- The record `create` saved in that run. -/
def createdState : State := ⟨"c1", 7, 4242, "created", "/bundle"⟩

/-- The call the console socket validation makes: `os.Stat` of the socket path,
made only when a terminal is asked for and the path is not empty. -/
def statCalls (terminal : Bool) (consoleSocket : String) : List Event :=
  if terminal = true ∧ consoleSocket ≠ "" then [.stat consoleSocket] else []

/-- Outcomes for the devfs specification with a terminal asked for, in which the
console socket path names a file that is not a socket. -/
def notSocket : CreateOutcomes :=
  { succeedWith (devSpec true none) with stat := .ok false }

/-- Calls that open the fifo. -/
def isOpenFifo : Action → Bool
  | .openFifo _ _ => true
  | _ => false

/-- Outcomes of a helper run with a console requested through the descriptor 3
and with a fifo, in which every call succeeds. -/
def consoleRun : EntrypointOutcomes :=
  { readyRun with consoleSocketEnv := "3" }

/-! ## Lemmas on the mount table -/

theorem join_cons (a : String) (l : List String) :
    String.join (a :: l) = a ++ String.join l := by
  have h : ∀ (l : List String) (acc : String),
      List.foldl (fun r s => r ++ s) acc l = acc ++ List.foldl (fun r s => r ++ s) "" l := by
    intro l
    induction l with
    | nil => intro acc; simp
    | cons b t ih =>
      intro acc
      rw [List.foldl_cons, List.foldl_cons, ih (acc ++ b), ih ("" ++ b)]
      simp [String.append_assoc]
  show List.foldl (fun r s => r ++ s) "" (a :: l) = a ++ List.foldl (fun r s => r ++ s) "" l
  rw [List.foldl_cons, h l ("" ++ a)]
  simp

theorem renderOptions_eq (fstab : String) (options : List String) :
    renderOptions fstab options =
      fstab ++ String.join ((options.filter (fun o => o ≠ "strictatime")).map
        (fun o => "," ++ o)) := by
  induction options generalizing fstab with
  | nil => simp [renderOptions, String.join]
  | cons o rest ih =>
    by_cases h : o = "strictatime"
    · simp [renderOptions, h, ih]
    · simp [renderOptions, h, ih, join_cons, String.append_assoc]

theorem renderMount_acc (root fstab : String) (mount : Mount) :
    renderMount root fstab mount = fstab ++ renderMount root "" mount := by
  unfold renderMount
  by_cases hq : mount.Type_ = "mqueue"
  · simp [hq]
  · by_cases hd : mount.Destination = "/dev"
    · simp [hq, hd, String.append_assoc]
    · by_cases ho : mount.Options.length > 0
      · simp only [hq, hd, ho, if_true, if_false, renderOptions_eq, String.append_assoc,
          String.empty_append]
      · simp [hq, hd, ho, String.append_assoc]

theorem renderFstab_cons (root : String) (mount : Mount) (mounts : List Mount) :
    renderFstab root (mount :: mounts) = renderFstab root [mount] ++ renderFstab root mounts := by
  have h : ∀ (l : List Mount) (acc : String),
      List.foldl (renderMount root) acc l = acc ++ List.foldl (renderMount root) "" l := by
    intro l
    induction l with
    | nil => intro acc; simp
    | cons b t ih =>
      intro acc
      rw [List.foldl_cons, List.foldl_cons, ih (renderMount root acc b),
        ih (renderMount root "" b), renderMount_acc root acc b, String.append_assoc]
  show List.foldl (renderMount root) "" (mount :: mounts) = _
  rw [List.foldl_cons, h mounts (renderMount root "" mount)]
  rfl

theorem renderFstab_mqueue (root : String) (mount : Mount) (h : mount.Type_ = "mqueue") :
    renderFstab root [mount] = "" := by
  simp [renderFstab, renderMount, h]

theorem renderFstab_line (root : String) (mount : Mount) (h : mount.Type_ ≠ "mqueue") :
    renderFstab root [mount] =
      mount.Source ++ "\t" ++ filepath.Join root mount.Destination ++ "\t" ++ mount.Type_ ++
        "\t" ++ "rw,late" ++
        (if mount.Destination = "/dev" then ",ruleset=5"
         else String.join ((mount.Options.filter (fun o => o ≠ "strictatime")).map
           (fun o => "," ++ o))) ++ "\t0 0\n" := by
  by_cases hd : mount.Destination = "/dev"
  · simp [renderFstab, renderMount, h, hd, String.append_assoc]
  · by_cases ho : mount.Options.length > 0
    · simp only [renderFstab, List.foldl_cons, List.foldl_nil, renderMount, h, hd, ho, if_true,
        if_false, renderOptions_eq, String.append_assoc, String.empty_append]
    · have hnil : mount.Options = [] := by
        cases hopt : mount.Options with
        | nil => rfl
        | cons a l => rw [hopt] at ho; simp at ho
      simp [renderFstab, renderMount, h, hd, hnil, String.join, String.append_assoc]

theorem newlines_append (s t : String) : newlines (s ++ t) = newlines s + newlines t := by
  simp [newlines, List.count_append]

theorem newlines_options (options : List String) (h : ∀ o ∈ options, newlines o = 0) :
    newlines (String.join ((options.filter (fun o => o ≠ "strictatime")).map
      (fun o => "," ++ o))) = 0 := by
  induction options with
  | nil => simp [String.join, newlines]
  | cons o rest ih =>
    have hrest := ih (fun x hx => h x (List.mem_cons_of_mem _ hx))
    have ho := h o (List.mem_cons_self _ _)
    by_cases hs : o = "strictatime"
    · simpa [hs] using hrest
    · simp only [ne_eq, hs, not_false_eq_true, decide_True, List.filter_cons_of_pos,
        List.map_cons, join_cons, newlines_append, ho, Nat.add_zero, Nat.zero_add]
      simp only [ne_eq] at hrest
      rw [hrest]
      decide

/-- C1. The mount table is the concatenation, in mount-list order, of the lines
of the mounts that are not of type `mqueue`; the line of such a mount whose
destination is not `/dev` is source, TAB, joined destination, TAB, type, TAB,
`rw,late` followed by `,option` for each declared option other than
`strictatime` in declared order, TAB, `0 0`, newline. -/
theorem renderFstab_lines (root : String) (mounts : List Mount) :
    renderFstab root mounts =
        String.join ((mounts.filter (fun m => m.Type_ ≠ "mqueue")).map
          (fun m => renderFstab root [m])) ∧
      ∀ m : Mount, m.Type_ ≠ "mqueue" → m.Destination ≠ "/dev" →
        renderFstab root [m] =
          m.Source ++ "\t" ++ filepath.Join root m.Destination ++ "\t" ++ m.Type_ ++ "\t" ++
            "rw,late" ++
            String.join ((m.Options.filter (fun o => o ≠ "strictatime")).map
              (fun o => "," ++ o)) ++ "\t" ++ "0 0" ++ "\n" := by
  constructor
  · induction mounts with
    | nil => rfl
    | cons m rest ih =>
      rw [renderFstab_cons]
      by_cases hq : m.Type_ = "mqueue"
      · rw [renderFstab_mqueue root m hq, String.empty_append, ih]
        simp [hq]
      · rw [ih]
        simp [hq, join_cons]
  · intro m hq hd
    rw [renderFstab_line root m hq]
    simp [hd, String.append_assoc]

theorem renderFstab_lines_witness :
    renderFstab "/bundle/root"
        [⟨"/proc", "procfs", "proc", ["nosuid", "strictatime", "noexec"]⟩] =
      "proc\t/bundle/root/proc\tprocfs\trw,late,nosuid,noexec\t0 0\n" :=
  ((renderFstab_lines "/bundle/root" []).2
    ⟨"/proc", "procfs", "proc", ["nosuid", "strictatime", "noexec"]⟩
    (by decide) (by decide)).trans (by decide)

/-- C2. A mount with destination exactly `/dev` (and type other than `mqueue`) is
rendered with the option field `rw,late,ruleset=5` whatever options it declares;
the mount devfs on `/dev` under `/bundle/root` gives the line
`devfs TAB /bundle/root/dev TAB devfs TAB rw,late,ruleset=5 TAB 0 0`. -/
theorem renderFstab_dev (root : String) (m : Mount) (hq : m.Type_ ≠ "mqueue")
    (hd : m.Destination = "/dev") :
    renderFstab root [m] =
        m.Source ++ "\t" ++ filepath.Join root "/dev" ++ "\t" ++ m.Type_ ++ "\t" ++
          "rw,late,ruleset=5" ++ "\t" ++ "0 0" ++ "\n" ∧
      renderFstab "/bundle/root" [⟨"/dev", "devfs", "devfs", []⟩] =
        "devfs\t/bundle/root/dev\tdevfs\trw,late,ruleset=5\t0 0" ++ "\n" := by
  constructor
  · rw [renderFstab_line root m hq]
    simp [hd, String.append_assoc]
  · decide

theorem renderFstab_dev_witness :
    renderFstab "/jail" [⟨"/dev", "devfs", "devfs", ["strictatime", "ro"]⟩] =
      "devfs\t/jail/dev\tdevfs\trw,late,ruleset=5\t0 0\n" :=
  ((renderFstab_dev "/jail" ⟨"/dev", "devfs", "devfs", ["strictatime", "ro"]⟩
    (by decide) rfl).1).trans (by decide)

/-- C3. A mount of type `mqueue` contributes no line: the table of a mount list
is the table of the list without its `mqueue` entries, and when no field of an
emitted line contains a newline the number of newline-terminated lines is the
number of mounts whose type is not `mqueue`. -/
theorem renderFstab_skips_mqueue (root : String) (mounts : List Mount) :
    renderFstab root mounts =
        renderFstab root (mounts.filter (fun m => m.Type_ ≠ "mqueue")) ∧
      ((∀ m ∈ mounts, m.Type_ ≠ "mqueue" →
          newlines m.Source = 0 ∧ newlines (filepath.Join root m.Destination) = 0 ∧
          newlines m.Type_ = 0 ∧ ∀ o ∈ m.Options, newlines o = 0) →
        newlines (renderFstab root mounts) =
          (mounts.filter (fun m => m.Type_ ≠ "mqueue")).length) := by
  constructor
  · induction mounts with
    | nil => rfl
    | cons m rest ih =>
      rw [renderFstab_cons]
      by_cases hq : m.Type_ = "mqueue"
      · rw [renderFstab_mqueue root m hq, String.empty_append, ih]
        simp [hq]
      · have hf : (m :: rest).filter (fun m => m.Type_ ≠ "mqueue") =
            m :: rest.filter (fun m => m.Type_ ≠ "mqueue") := by simp [hq]
        rw [hf, renderFstab_cons root m (rest.filter _), ih]
  · intro h
    induction mounts with
    | nil => rfl
    | cons m rest ih =>
      have hrest := ih (fun x hx => h x (List.mem_cons_of_mem _ hx))
      rw [renderFstab_cons, newlines_append, hrest]
      by_cases hq : m.Type_ = "mqueue"
      · rw [renderFstab_mqueue root m hq]
        simp [hq, newlines]
      · obtain ⟨hs, hj, ht, ho⟩ := h m (List.mem_cons_self _ _) hq
        have hline : newlines (renderFstab root [m]) = 1 := by
          rw [renderFstab_line root m hq]
          by_cases hd : m.Destination = "/dev"
          · simp only [hd, if_true, newlines_append, hs, ht]
            rw [hd] at hj
            rw [hj]
            decide
          · simp only [hd, if_false, newlines_append, hs, ht, hj, newlines_options m.Options ho]
            decide
        rw [hline]
        simp [hq]
        omega

theorem renderFstab_skips_mqueue_witness :
    newlines (renderFstab "/r"
        [⟨"/dev", "devfs", "devfs", []⟩, ⟨"/mq", "mqueue", "mqueue", ["a\nb"]⟩,
         ⟨"/tmp", "tmpfs", "tmpfs", ["nosuid"]⟩]) = 2 :=
  (renderFstab_skips_mqueue "/r"
    [⟨"/dev", "devfs", "devfs", []⟩, ⟨"/mq", "mqueue", "mqueue", ["a\nb"]⟩,
     ⟨"/tmp", "tmpfs", "tmpfs", ["nosuid"]⟩]).2 (by decide)

/-! ## The jail configuration text -/

set_option maxRecDepth 100000 in
theorem parse_configTemplate :
    template.Parse configTemplate = .ok
      [.text "", .field "Name",
       .text " \x7b\n  allow.raw_sockets;\n  allow.mlock;\n  sysvmsg = new;\n  sysvsem = new;\n  sysvshm = new;\n\n  path = \"",
       .field "Root", .text "\";\n  vnet;\n  persist;\n\x7d\n"] := by
  have h : template.parseNodes (configTemplate.data.length + 1) configTemplate.data = some
      [.text "", .field "Name",
       .text " \x7b\n  allow.raw_sockets;\n  allow.mlock;\n  sysvmsg = new;\n  sysvsem = new;\n  sysvshm = new;\n\n  path = \"",
       .field "Root", .text "\";\n  vnet;\n  persist;\n\x7d\n"] := by decide
  unfold template.Parse
  rw [h]

/-- C4. For every id and root, `renderConfig` returns, without error, the block
named after the id with the fixed directives and the path directive equal to the
root; it takes no mount list; for the root `/bundle/root` the text contains
`path = "/bundle/root";`. -/
theorem renderConfig_text (stateDir : String → String) (id root : String) :
    renderConfig stateDir id root =
        (id ++ " \x7b\n  allow.raw_sockets;\n  allow.mlock;\n  sysvmsg = new;\n  sysvsem = new;\n  sysvshm = new;\n\n  path = \"" ++ root ++ "\";\n  vnet;\n  persist;\n\x7d\n", none) ∧
      ∃ before after : String,
        (renderConfig stateDir id "/bundle/root").1 =
          before ++ "path = \"/bundle/root\";" ++ after := by
  have h : ∀ r : String, renderConfig stateDir id r =
      (id ++ " \x7b\n  allow.raw_sockets;\n  allow.mlock;\n  sysvmsg = new;\n  sysvsem = new;\n  sysvshm = new;\n\n  path = \"" ++ r ++ "\";\n  vnet;\n  persist;\n\x7d\n", none) := by
    intro r
    unfold renderConfig
    rw [parse_configTemplate]
    simp [template.Execute]
  refine ⟨h root, id ++ " \x7b\n  allow.raw_sockets;\n  allow.mlock;\n  sysvmsg = new;\n  sysvsem = new;\n  sysvshm = new;\n\n  ", "\n  vnet;\n  persist;\n\x7d\n", ?_⟩
  rw [h]
  simp only [String.append_assoc]
  congr 1

/-! ## The effective root -/

theorem createCommand_rootPath_eq (bundle : String) (ociConfig : Option Spec) :
    createCommand.rootPath bundle ociConfig =
      some (match ociConfig with
        | none => filepath.Join bundle "root"
        | some cfg => effectiveRootSpec bundle cfg.Root) := by
  unfold createCommand.rootPath effectiveRootSpec
  cases ociConfig with
  | none => rfl
  | some cfg =>
    cases hr : cfg.Root with
    | none => simp [hr]
    | some root =>
      by_cases hp : root.Path = ""
      · simp [hr, hp]
      · cases hd : root.Path.data with
        | nil =>
          exfalso
          apply hp
          cases hP : root.Path with
          | mk d =>
            rw [hP] at hd
            simp only at hd
            rw [hd]
        | cons c rest =>
          by_cases hc : c = '/'
          · simp [hr, hp, hd, hc, filepath.Separator]
          · simp [hr, hp, hd, hc, filepath.Separator]

theorem deleteCommand_rootPath_eq (bundle : String) (ociConfig : Option Spec) :
    deleteCommand.rootPath bundle ociConfig = createCommand.rootPath bundle ociConfig := rfl

/-- C10. For every bundle and specification the effective root computed by
`delete` equals the one computed by `create`, and both are: the `root`
subdirectory of the bundle when no root or an empty root path is declared, the
declared path itself when it begins with the separator, the declared path joined
to the bundle otherwise; the index into the declared path is never out of range
(the computation never gives `none`). -/
theorem rootPath_agree (bundle : String) (cfg : Spec) :
    deleteCommand.rootPath bundle (some cfg) = createCommand.rootPath bundle (some cfg) ∧
      createCommand.rootPath bundle (some cfg) = some (effectiveRootSpec bundle cfg.Root) ∧
      (createCommand.rootPath bundle (some cfg)).isSome = true ∧
      (deleteCommand.rootPath bundle (some cfg)).isSome = true ∧
      deleteCommand.rootPath bundle none = createCommand.rootPath bundle none := by
  refine ⟨rfl, createCommand_rootPath_eq bundle (some cfg), ?_, ?_, rfl⟩
  · rw [createCommand_rootPath_eq]; rfl
  · rw [deleteCommand_rootPath_eq, createCommand_rootPath_eq]; rfl

/-! ## Traces -/

theorem mountCalls_append (a b : List Event) :
    mountCalls (a ++ b) = mountCalls a ++ mountCalls b := by
  induction a with
  | nil => rfl
  | cons e t ih => cases e <;> simp [mountCalls, ih]

theorem unmountCalls_append (a b : List Event) :
    unmountCalls (a ++ b) = unmountCalls a ++ unmountCalls b := by
  induction a with
  | nil => rfl
  | cons e t ih => cases e <;> simp [unmountCalls, ih]

theorem appliedMounts_append (a b : List Event) :
    appliedMounts (a ++ b) = appliedMounts a ++ appliedMounts b := by
  induction a with
  | nil => rfl
  | cons e t ih =>
    cases e with
    | mount m target ok => cases ok <;> simp [appliedMounts, ih]
    | _ => simp [appliedMounts, ih]

theorem execCalls_append (a b : List Event) :
    execCalls (a ++ b) = execCalls a ++ execCalls b := by
  induction a with
  | nil => rfl
  | cons e t ih => cases e <;> simp [execCalls, ih]

theorem mountCalls_mountEvents (rootPath : String) (ok : Bool) (mounts : List Mount) :
    mountCalls (mounts.map (mountEvent rootPath ok)) =
      mounts.map (fun sm => (mountOf sm, targetOf rootPath sm, ok)) := by
  induction mounts with
  | nil => rfl
  | cons sm rest ih => simp [mountCalls, mountEvent, targetOf, ih]

theorem appliedMounts_mountEvents (rootPath : String) (mounts : List Mount) :
    appliedMounts (mounts.map (mountEvent rootPath true)) = mounts.map (targetOf rootPath) := by
  induction mounts with
  | nil => rfl
  | cons sm rest ih => simp [appliedMounts, mountEvent, targetOf, ih]

theorem unmountCalls_mountEvents (rootPath : String) (ok : Bool) (mounts : List Mount) :
    unmountCalls (mounts.map (mountEvent rootPath ok)) = [] := by
  induction mounts with
  | nil => rfl
  | cons sm rest ih => simp [unmountCalls, mountEvent, ih]

theorem jailCreation_mountEvents (rootPath : String) (ok : Bool) (mounts : List Mount) :
    ∀ e ∈ mounts.map (mountEvent rootPath ok), isJailCreation e = false := by
  intro e he
  simp only [List.mem_map] at he
  obtain ⟨sm, _, rfl⟩ := he
  rfl

/-! ## The deferred functions -/

/-- When the run has failed, every deferred function makes its call, the last
registered first, and the returned error stays. -/
theorem runDefers_failed (w : CreateOutcomes) (defers : List Deferred) (f : Frame)
    (e : Error) (h : f.err = some e) :
    createCommand.runDefers w defers f =
      { f with trace := f.trace ++ defers.map compensation } := by
  induction defers generalizing f with
  | nil => simp [createCommand.runDefers]
  | cons d rest ih =>
    have hstep : createCommand.runDeferred w f d = f.log (compensation d) := by
      cases d <;> simp [createCommand.runDeferred, h, compensation]
    rw [createCommand.runDefers, hstep, ih (f.log (compensation d)) (by simpa [Frame.log] using h)]
    simp [Frame.log]

theorem unmountCalls_compensation (targets : List String) (id : String) :
    unmountCalls ((targets.map Deferred.unmountOnFailure ++ [Deferred.finalize id]).map
      compensation) = targets := by
  induction targets with
  | nil => rfl
  | cons t rest ih => simpa [unmountCalls, compensation] using ih

theorem mountCalls_compensation (defers : List Deferred) :
    mountCalls (defers.map compensation) = [] := by
  induction defers with
  | nil => rfl
  | cons d rest ih => cases d <;> simpa [mountCalls, compensation] using ih

theorem appliedMounts_compensation (defers : List Deferred) :
    appliedMounts (defers.map compensation) = [] := by
  induction defers with
  | nil => rfl
  | cons d rest ih => cases d <;> simpa [appliedMounts, compensation] using ih

theorem jailCreation_compensation (defers : List Deferred) :
    ∀ e ∈ defers.map compensation, isJailCreation e = false := by
  intro e he
  simp only [List.mem_map] at he
  obtain ⟨d, _, rfl⟩ := he
  cases d <;> rfl

/-! ## The mount loop of `create` -/

theorem first_failure (p : Nat → Option Error) (n : Nat) :
    (∀ i, i < n → p i = none) ∨
      ∃ j, j < n ∧ (∀ i, i < j → p i = none) ∧ ∃ e, p j = some e := by
  induction n with
  | zero => left; intro i hi; omega
  | succ n ih =>
    rcases ih with hall | ⟨j, hj, hpre, e, he⟩
    · cases hn : p n with
      | none =>
        left
        intro i hi
        rcases Nat.lt_succ_iff_lt_or_eq.mp hi with h | h
        · exact hall i h
        · rw [h]; exact hn
      | some e => exact Or.inr ⟨n, Nat.lt_succ_self n, hall, e, hn⟩
    · exact Or.inr ⟨j, Nat.lt_succ_of_lt hj, hpre, e, he⟩

theorem setupMounts_step_mount (sm : Mount) :
    (if sm.Destination = "/dev" then
        ({ Type_ := sm.Type_, Source := sm.Source, Options := sm.Options ++ ["ruleset=5"] } :
          mount.Mount)
      else { Type_ := sm.Type_, Source := sm.Source, Options := sm.Options }) = mountOf sm := by
  unfold mountOf
  split <;> rfl

theorem setupMounts_all_ok (w : CreateOutcomes) (rootPath : String) :
    ∀ (mounts : List Mount) (k : Nat) (f : Frame),
      (∀ i, i < mounts.length → w.mount (k + i) = none) →
      createCommand.setupMounts w rootPath mounts k f =
        .ok { f with
          trace := f.trace ++ mounts.map (mountEvent rootPath true)
          defers := (mounts.map (fun sm => Deferred.unmountOnFailure (targetOf rootPath sm))).reverse
            ++ f.defers } := by
  intro mounts
  induction mounts with
  | nil => intro k f _; simp [createCommand.setupMounts]
  | cons sm rest ih =>
    intro k f h
    have h0 : w.mount k = none := by simpa using h 0 (by simp)
    have hrest : ∀ i, i < rest.length → w.mount (k + 1 + i) = none := by
      intro i hi
      have := h (i + 1) (by simpa using hi)
      rwa [show k + 1 + i = k + (i + 1) by omega]
    simp only [createCommand.setupMounts, h0, setupMounts_step_mount]
    rw [ih (k + 1) _ hrest]
    simp [Frame.log, Frame.defer, mountEvent, targetOf]

theorem setupMounts_first_failure (w : CreateOutcomes) (rootPath : String) :
    ∀ (mounts : List Mount) (k : Nat) (f : Frame) (j : Nat) (sm : Mount) (e : Error),
      mounts[j]? = some sm → (∀ i, i < j → w.mount (k + i) = none) → w.mount (k + j) = some e →
      createCommand.setupMounts w rootPath mounts k f =
        .error { f with
          err := some (.wrapf e "failed to mount %v" [.mount (mountOf sm)])
          trace := f.trace ++ ((mounts.take j).map (mountEvent rootPath true) ++
            [mountEvent rootPath false sm])
          defers := ((mounts.take j).map
            (fun sm => Deferred.unmountOnFailure (targetOf rootPath sm))).reverse ++ f.defers } := by
  intro mounts
  induction mounts with
  | nil => intro k f j sm e hget; simp at hget
  | cons sm0 rest ih =>
    intro k f j sm e hget hpre hfail
    cases j with
    | zero =>
      have hsm : sm0 = sm := by simpa using hget
      have h0 : w.mount k = some e := by simpa using hfail
      subst hsm
      simp [createCommand.setupMounts, h0, setupMounts_step_mount, Frame.log, Frame.ret,
        mountEvent]
    | succ j =>
      have h0 : w.mount k = none := by simpa using hpre 0 (by omega)
      have hget1 : rest[j]? = some sm := by simpa using hget
      have hpre1 : ∀ i, i < j → w.mount (k + 1 + i) = none := by
        intro i hi
        have := hpre (i + 1) (by omega)
        rwa [show k + 1 + i = k + (i + 1) by omega]
      have hfail1 : w.mount (k + 1 + j) = some e := by
        rwa [show k + 1 + j = k + (j + 1) by omega]
      simp only [createCommand.setupMounts, h0, setupMounts_step_mount]
      rw [ih (k + 1) _ j sm e hget1 hpre1 hfail1]
      simp [Frame.log, Frame.defer, mountEvent, targetOf]

/-! ## Console validation -/

theorem validateConsole_rejects (w : CreateOutcomes) (terminal : Bool) (consoleSocket : String)
    (f : Frame) (hbad : consoleInconsistent terminal consoleSocket w.stat = true) :
    ∃ (e : Error) (l : List Event),
      createCommand.validateConsole w terminal consoleSocket f =
        .error { f with err := some e, trace := f.trace ++ l } ∧
      (l = [] ∨ l = [.stat consoleSocket]) := by
  unfold consoleInconsistent at hbad
  unfold createCommand.validateConsole
  cases terminal with
  | true =>
    by_cases hs : consoleSocket = ""
    · exact ⟨.errorsNew "console-socket is required when Process.Terminal is true", [],
        by simp [hs, Frame.ret], Or.inl rfl⟩
    · cases hst : w.stat with
      | error err =>
        exact ⟨.wrapf err "failed to stat console socket %q: %w" [.str consoleSocket],
          [.stat consoleSocket], by simp [hs, Frame.ret, Frame.log], Or.inr rfl⟩
      | ok isSocket =>
        cases isSocket with
        | false =>
          exact ⟨.errorf "console-socket %q is not a socket" [.str consoleSocket],
            [.stat consoleSocket], by simp [hs, Frame.ret, Frame.log], Or.inr rfl⟩
        | true => simp [hs, hst] at hbad
  | false =>
    have hs : consoleSocket ≠ "" := by simpa using hbad
    exact ⟨.errorsNew "console-socket provided but Process.Terminal is false", [],
      by simp [hs, Frame.ret], Or.inl rfl⟩

theorem fromMounts_console_rejected (w : CreateOutcomes) (id consoleSocket rootPath : String)
    (cfg : Spec) (process : Process) (f : Frame) (hproc : cfg.Process = some process)
    (hbad : consoleInconsistent process.Terminal consoleSocket w.stat = true) :
    ∃ (e : Error) (applied : List String) (l : List Event),
      createCommand.fromMounts w id consoleSocket rootPath cfg f =
        .error { f with
          err := some e
          trace := f.trace ++ l
          defers := (applied.map Deferred.unmountOnFailure).reverse ++ f.defers } ∧
      appliedMounts l = applied ∧ unmountCalls l = [] ∧
      ∀ ev ∈ l, isJailCreation ev = false := by
  have hafter : ∀ f1 : Frame, ∃ (e : Error) (l : List Event),
      createCommand.afterMounts w id consoleSocket rootPath cfg f1 =
        .error { f1 with err := some e, trace := f1.trace ++ l } ∧
      (l = [] ∨ l = [.stat consoleSocket]) := by
    intro f1
    obtain ⟨e, l, hv, hl⟩ := validateConsole_rejects w process.Terminal consoleSocket f1 hbad
    exact ⟨e, l, by simp [createCommand.afterMounts, hproc, hv], hl⟩
  unfold createCommand.fromMounts
  cases hm : cfg.Mounts with
  | none =>
    obtain ⟨e, l, hv, hl⟩ := hafter f
    refine ⟨e, [], l, by simp [hv], ?_, ?_, ?_⟩
    · rcases hl with rfl | rfl <;> rfl
    · rcases hl with rfl | rfl <;> rfl
    · rcases hl with rfl | rfl <;> simp [isJailCreation]
  | some mounts =>
    rcases first_failure w.mount mounts.length with hall | ⟨j, hj, hpre, e, he⟩
    · have hok := setupMounts_all_ok w rootPath mounts 0 f (by simpa using hall)
      obtain ⟨e, l, hv, hl⟩ := hafter { f with
          trace := f.trace ++ mounts.map (mountEvent rootPath true)
          defers := (mounts.map (fun sm => Deferred.unmountOnFailure (targetOf rootPath sm))).reverse
            ++ f.defers }
      refine ⟨e, mounts.map (targetOf rootPath), mounts.map (mountEvent rootPath true) ++ l,
        by simp [hok, hv, Function.comp_def], ?_, ?_, ?_⟩
      · rw [appliedMounts_append, appliedMounts_mountEvents]
        rcases hl with rfl | rfl <;> simp [appliedMounts]
      · rw [unmountCalls_append, unmountCalls_mountEvents]
        rcases hl with rfl | rfl <;> simp [unmountCalls]
      · intro ev hev
        rcases List.mem_append.mp hev with h | h
        · exact jailCreation_mountEvents rootPath true mounts ev h
        · rcases hl with rfl | rfl
          · simp at h
          · simp at h; rw [h]; rfl
    · obtain ⟨sm, hsm⟩ : ∃ sm, mounts[j]? = some sm := ⟨mounts[j], by simp [hj]⟩
      have hfail := setupMounts_first_failure w rootPath mounts 0 f j sm e hsm
        (by simpa using hpre) (by simpa using he)
      refine ⟨.wrapf e "failed to mount %v" [.mount (mountOf sm)],
        (mounts.take j).map (targetOf rootPath),
        (mounts.take j).map (mountEvent rootPath true) ++ [mountEvent rootPath false sm],
        by simp [hfail, Function.comp_def], ?_, ?_, ?_⟩
      · rw [appliedMounts_append, appliedMounts_mountEvents]
        simp [appliedMounts, mountEvent]
      · rw [unmountCalls_append, unmountCalls_mountEvents]
        simp [unmountCalls, mountEvent]
      · intro ev hev
        rcases List.mem_append.mp hev with h | h
        · exact jailCreation_mountEvents rootPath true _ ev h
        · simp at h; rw [h]; rfl

theorem appliedMounts_reverse_map (targets : List String) :
    (targets.map Deferred.unmountOnFailure).reverse =
      targets.reverse.map Deferred.unmountOnFailure := by
  simp

/-- When the console request is inconsistent, `create` fails without panicking,
no jail creation is attempted, and `mount.UnmountAll` is called on the targets
that were mounted, last mounted first. -/
theorem console_rejected_calls (w : CreateOutcomes) (id bundle consoleSocket : String)
    (cfg : Spec) (process : Process) (hload : w.loadConfig = .ok (some cfg))
    (hproc : cfg.Process = some process)
    (hbad : consoleInconsistent process.Terminal consoleSocket w.stat = true) :
    (createCommand.RunE w id bundle consoleSocket).err ≠ none ∧
      (createCommand.RunE w id bundle consoleSocket).panicking = false ∧
      (∀ ev ∈ (createCommand.RunE w id bundle consoleSocket).trace, isJailCreation ev = false) ∧
      unmountCalls (createCommand.RunE w id bundle consoleSocket).trace =
        (appliedMounts (createCommand.RunE w id bundle consoleSocket).trace).reverse := by
  unfold createCommand.RunE createCommand.body
  cases hsc : w.stateCreate with
  | error err =>
    simp [createCommand.exitFrame, createCommand.start, Frame.log, Frame.ret,
      createCommand.runDefers, isJailCreation, unmountCalls, appliedMounts]
  | ok st =>
    cases hst : w.storeConfig with
    | some err =>
      simp [createCommand.exitFrame, createCommand.start, Frame.log, Frame.ret, Frame.defer,
        createCommand.runDefers, createCommand.runDeferred, isJailCreation, unmountCalls,
        appliedMounts]
    | none =>
      obtain ⟨rootPath, hroot⟩ : ∃ r, createCommand.rootPath bundle (some cfg) = some r :=
        ⟨_, createCommand_rootPath_eq bundle (some cfg)⟩
      obtain ⟨e, applied, l, hfm, happ, hun, hjail⟩ :=
        fromMounts_console_rejected w id consoleSocket rootPath cfg process
          ((({ (createCommand.start.log (.stateCreate id bundle)).defer (.finalize id) with
            s := st } : Frame).log (.storeConfig id bundle)).log (.loadConfig id)) hproc hbad
      simp only [hload, hroot, hfm, createCommand.exitFrame]
      rw [runDefers_failed w _ _ e rfl]
      simp only [createCommand.start, Frame.log, Frame.defer, List.nil_append, List.append_assoc,
        List.cons_append, appliedMounts_reverse_map]
      refine ⟨by simp, trivial, ?_, ?_⟩
      · intro ev hev
        simp only [List.mem_cons, List.mem_append] at hev
        rcases hev with rfl | rfl | rfl | h | h
        · rfl
        · rfl
        · rfl
        · exact hjail ev h
        · exact jailCreation_compensation _ ev h
      · have hcomp := unmountCalls_compensation applied.reverse id
        have happ2 := appliedMounts_compensation
          (applied.reverse.map Deferred.unmountOnFailure ++ [Deferred.finalize id])
        simp only [unmountCalls, appliedMounts, unmountCalls_append, appliedMounts_append, hun,
          happ, hcomp, happ2, List.nil_append, List.append_nil]

theorem validateConsole_rejects_exact (w : CreateOutcomes) (terminal : Bool)
    (consoleSocket : String) (f : Frame)
    (hbad : consoleInconsistent terminal consoleSocket w.stat = true) :
    ∃ e : Error,
      createCommand.validateConsole w terminal consoleSocket f =
        .error { f with err := some e, trace := f.trace ++ statCalls terminal consoleSocket } := by
  unfold consoleInconsistent at hbad
  unfold createCommand.validateConsole statCalls
  cases terminal with
  | true =>
    by_cases hs : consoleSocket = ""
    · exact ⟨.errorsNew "console-socket is required when Process.Terminal is true",
        by simp [hs, Frame.ret]⟩
    · cases hst : w.stat with
      | error err =>
        exact ⟨.wrapf err "failed to stat console socket %q: %w" [.str consoleSocket],
          by simp [hs, Frame.ret, Frame.log]⟩
      | ok isSocket =>
        cases isSocket with
        | false =>
          exact ⟨.errorf "console-socket %q is not a socket" [.str consoleSocket],
            by simp [hs, Frame.ret, Frame.log]⟩
        | true => simp [hs, hst] at hbad
  | false =>
    have hs : consoleSocket ≠ "" := by simpa using hbad
    exact ⟨.errorsNew "console-socket provided but Process.Terminal is false",
      by simp [hs, Frame.ret]⟩

theorem fromMounts_eq (w : CreateOutcomes) (id consoleSocket rootPath : String) (cfg : Spec)
    (f : Frame) :
    createCommand.fromMounts w id consoleSocket rootPath cfg f =
      match createCommand.setupMounts w rootPath (declaredMounts cfg) 0 f with
      | .error f1 => .error f1
      | .ok f1 => createCommand.afterMounts w id consoleSocket rootPath cfg f1 := by
  unfold createCommand.fromMounts declaredMounts
  cases hm : cfg.Mounts with
  | none => simp [createCommand.setupMounts]
  | some mounts => simp

theorem compensation_unmounts (targets : List String) (id : String) :
    (targets.map Deferred.unmountOnFailure ++ [Deferred.finalize id]).map compensation =
      targets.map Event.unmountAll ++ [Event.stateRemove id] := by
  induction targets with
  | nil => rfl
  | cons t rest ih => simp [compensation]

/-- The whole trace of a run of `create` that reaches the mounts and has an
inconsistent console request: the mounts first, then the `os.Stat` of the
validation when it is made, then the calls of the deferred functions. -/
theorem console_rejected_trace (w : CreateOutcomes) (id bundle consoleSocket : String)
    (cfg : Spec) (process : Process) (st : State) (hsc : w.stateCreate = .ok st)
    (hst : w.storeConfig = none) (hload : w.loadConfig = .ok (some cfg))
    (hproc : cfg.Process = some process)
    (hbad : consoleInconsistent process.Terminal consoleSocket w.stat = true) :
    ((∀ i, i < (declaredMounts cfg).length → w.mount i = none) →
        (createCommand.RunE w id bundle consoleSocket).trace =
          [.stateCreate id bundle, .storeConfig id bundle, .loadConfig id] ++
            (declaredMounts cfg).map (mountEvent (effectiveRootSpec bundle cfg.Root) true) ++
            statCalls process.Terminal consoleSocket ++
            ((declaredMounts cfg).map
              (fun sm => Event.unmountAll (targetOf (effectiveRootSpec bundle cfg.Root) sm))).reverse
            ++ [.stateRemove id]) ∧
      ∀ (j : Nat) (sm : Mount) (e : Error), (declaredMounts cfg)[j]? = some sm →
        (∀ i, i < j → w.mount i = none) → w.mount j = some e →
        (createCommand.RunE w id bundle consoleSocket).trace =
            [.stateCreate id bundle, .storeConfig id bundle, .loadConfig id] ++
              ((declaredMounts cfg).take j).map
                (mountEvent (effectiveRootSpec bundle cfg.Root) true) ++
              [mountEvent (effectiveRootSpec bundle cfg.Root) false sm] ++
              (((declaredMounts cfg).take j).map
                (fun sm =>
                  Event.unmountAll (targetOf (effectiveRootSpec bundle cfg.Root) sm))).reverse
              ++ [.stateRemove id] ∧
          (createCommand.RunE w id bundle consoleSocket).err =
            some (.wrapf e "failed to mount %v" [.mount (mountOf sm)]) := by
  constructor
  · intro hall
    have hok := fun f => setupMounts_all_ok w (effectiveRootSpec bundle cfg.Root)
      (declaredMounts cfg) 0 f (by simpa using hall)
    unfold createCommand.RunE createCommand.body
    simp only [hsc, hst, hload, createCommand_rootPath_eq, fromMounts_eq, hok,
      createCommand.afterMounts, hproc]
    obtain ⟨e, hv⟩ := validateConsole_rejects_exact w process.Terminal consoleSocket
      { (({ (createCommand.start.log (.stateCreate id bundle)).defer (.finalize id) with
            s := st } : Frame).log (.storeConfig id bundle)).log (.loadConfig id) with
        trace := ((({ (createCommand.start.log (.stateCreate id bundle)).defer
            (.finalize id) with s := st } : Frame).log (.storeConfig id bundle)).log
            (.loadConfig id)).trace ++
          (declaredMounts cfg).map (mountEvent (effectiveRootSpec bundle cfg.Root) true)
        defers := ((declaredMounts cfg).map (fun sm =>
            Deferred.unmountOnFailure (targetOf (effectiveRootSpec bundle cfg.Root) sm))).reverse
          ++ ((({ (createCommand.start.log (.stateCreate id bundle)).defer
            (.finalize id) with s := st } : Frame).log (.storeConfig id bundle)).log
            (.loadConfig id)).defers } hbad
    simp only [hv, createCommand.exitFrame]
    rw [runDefers_failed w _ _ e rfl]
    simp only [createCommand.start, Frame.log, Frame.defer, List.nil_append, List.append_assoc,
      List.cons_append, ← List.map_reverse]
    rw [show ∀ l : List Mount, List.map (fun sm => Deferred.unmountOnFailure
        (targetOf (effectiveRootSpec bundle cfg.Root) sm)) l =
        (l.map (targetOf (effectiveRootSpec bundle cfg.Root))).map Deferred.unmountOnFailure
        from fun l => by simp, compensation_unmounts]
    simp
  · intro j sm e hget hpre hfail
    have hf := fun f => setupMounts_first_failure w (effectiveRootSpec bundle cfg.Root)
      (declaredMounts cfg) 0 f j sm e hget (by simpa using hpre) (by simpa using hfail)
    unfold createCommand.RunE createCommand.body
    simp only [hsc, hst, hload, createCommand_rootPath_eq, fromMounts_eq, hf,
      createCommand.exitFrame]
    rw [runDefers_failed w _ _ _ rfl]
    simp only [createCommand.start, Frame.log, Frame.defer, List.nil_append, List.append_assoc,
      List.cons_append, ← List.map_reverse]
    rw [show ∀ l : List Mount, List.map (fun sm => Deferred.unmountOnFailure
        (targetOf (effectiveRootSpec bundle cfg.Root) sm)) l =
        (l.map (targetOf (effectiveRootSpec bundle cfg.Root))).map Deferred.unmountOnFailure
        from fun l => by simp, compensation_unmounts]
    simp [Function.comp_def]

/-- C5 (as amended). When the console request is inconsistent, `create` fails
without panicking and no jail creation is attempted at any point of the run, and
`mount.UnmountAll` is called on the targets that were mounted, last mounted
first.  In such a run that reaches the mounts, the declared mounts are attempted
before the validation: when every mount succeeds the calls are the claim of the
state, the store and the load of the specification, `m.Mount` for every declared
mount in declared order, the `os.Stat` of the socket when the validation makes
it, `mount.UnmountAll` on every mounted target in reverse order, and the removal
of the state; when the mount of index `j` is the first to fail, the mounts
before it are made and unmounted in the same way and the mount error is
returned. -/
theorem create_console_rejected (w : CreateOutcomes) (id bundle consoleSocket : String)
    (cfg : Spec) (process : Process) (hload : w.loadConfig = .ok (some cfg))
    (hproc : cfg.Process = some process)
    (hbad : consoleInconsistent process.Terminal consoleSocket w.stat = true) :
    (createCommand.RunE w id bundle consoleSocket).err ≠ none ∧
      (createCommand.RunE w id bundle consoleSocket).panicking = false ∧
      (∀ ev ∈ (createCommand.RunE w id bundle consoleSocket).trace, isJailCreation ev = false) ∧
      unmountCalls (createCommand.RunE w id bundle consoleSocket).trace =
        (appliedMounts (createCommand.RunE w id bundle consoleSocket).trace).reverse ∧
      ∀ st : State, w.stateCreate = .ok st → w.storeConfig = none →
        ((∀ i, i < (declaredMounts cfg).length → w.mount i = none) →
          (createCommand.RunE w id bundle consoleSocket).trace =
            [.stateCreate id bundle, .storeConfig id bundle, .loadConfig id] ++
              (declaredMounts cfg).map (fun sm =>
                Event.mount (mountOf sm)
                  (filepath.Join (effectiveRootSpec bundle cfg.Root) sm.Destination) true) ++
              statCalls process.Terminal consoleSocket ++
              ((declaredMounts cfg).map (fun sm =>
                Event.unmountAll
                  (filepath.Join (effectiveRootSpec bundle cfg.Root) sm.Destination))).reverse ++
              [.stateRemove id]) ∧
        ∀ (j : Nat) (sm : Mount) (e : Error), (declaredMounts cfg)[j]? = some sm →
          (∀ i, i < j → w.mount i = none) → w.mount j = some e →
          (createCommand.RunE w id bundle consoleSocket).trace =
              [.stateCreate id bundle, .storeConfig id bundle, .loadConfig id] ++
                ((declaredMounts cfg).take j).map (fun sm =>
                  Event.mount (mountOf sm)
                    (filepath.Join (effectiveRootSpec bundle cfg.Root) sm.Destination) true) ++
                [Event.mount (mountOf sm)
                  (filepath.Join (effectiveRootSpec bundle cfg.Root) sm.Destination) false] ++
                (((declaredMounts cfg).take j).map (fun sm =>
                  Event.unmountAll
                    (filepath.Join (effectiveRootSpec bundle cfg.Root) sm.Destination))).reverse
                ++ [.stateRemove id] ∧
            (createCommand.RunE w id bundle consoleSocket).err =
              some (.wrapf e "failed to mount %v" [.mount (mountOf sm)]) := by
  obtain ⟨h1, h2, h3, h4⟩ :=
    console_rejected_calls w id bundle consoleSocket cfg process hload hproc hbad
  refine ⟨h1, h2, h3, h4, ?_⟩
  intro st hsc hst
  exact console_rejected_trace w id bundle consoleSocket cfg process st hsc hst hload hproc hbad

set_option maxRecDepth 100000 in
theorem create_console_rejected_witness :
    (createCommand.RunE notSocket "c1" "/bundle" "/run/c.sock").trace =
        [.stateCreate "c1" "/bundle", .storeConfig "c1" "/bundle", .loadConfig "c1",
          .mount ⟨"devfs", "devfs", ["ruleset=5"]⟩ "/bundle/root/dev" true,
          .stat "/run/c.sock", .unmountAll "/bundle/root/dev", .stateRemove "c1"] ∧
      (createCommand.RunE notSocket "c1" "/bundle" "/run/c.sock").err ≠ none ∧
      (∀ ev ∈ (createCommand.RunE notSocket "c1" "/bundle" "/run/c.sock").trace,
        isJailCreation ev = false) :=
  ⟨(((create_console_rejected notSocket "c1" "/bundle" "/run/c.sock" (devSpec true none)
      ⟨true, ["/bin/sh"], [], "/"⟩ rfl rfl (by decide)).2.2.2.2
      ⟨"c1", 0, 0, "", "/bundle"⟩ rfl rfl).1 (fun _ _ => rfl)).trans (by decide),
   (create_console_rejected notSocket "c1" "/bundle" "/run/c.sock" (devSpec true none)
      ⟨true, ["/bin/sh"], [], "/"⟩ rfl rfl (by decide)).1,
   (create_console_rejected notSocket "c1" "/bundle" "/run/c.sock" (devSpec true none)
      ⟨true, ["/bin/sh"], [], "/"⟩ rfl rfl (by decide)).2.2.1⟩

set_option maxRecDepth 100000 in
/-- C5 (as stated) fails: with a terminal requested and an empty console socket
path, and the devfs mount declared, `create` fails but the mount on
`/bundle/root/dev` has been performed before the validation. -/
theorem create_console_mount_counterexample :
    (devSpec true none).Process = some ⟨true, ["/bin/sh"], [], "/"⟩ ∧
      consoleInconsistent true "" (succeedWith (devSpec true none)).stat = true ∧
      (createCommand.RunE (succeedWith (devSpec true none)) "c1" "/bundle" "").err =
        some (.errorsNew "console-socket is required when Process.Terminal is true") ∧
      mountCalls (createCommand.RunE (succeedWith (devSpec true none)) "c1" "/bundle" "").trace =
        [(⟨"devfs", "devfs", ["ruleset=5"]⟩, "/bundle/root/dev", true)] := by
  decide

set_option maxRecDepth 100000 in
/-- C6, at the failing input: every step succeeds except the final save of the
record.  `create` returns the error of the save, and no compensation has run:
the mounted target is not unmounted, the created jail is not destroyed, the
state record is not removed. -/
theorem create_save_failure_no_compensation :
    (createCommand.RunE saveFails "c1" "/bundle" "").err = some (.external "save failed") ∧
      appliedMounts (createCommand.RunE saveFails "c1" "/bundle" "").trace =
        ["/bundle/root/dev"] ∧
      unmountCalls (createCommand.RunE saveFails "c1" "/bundle" "").trace = [] ∧
      (createCommand.RunE saveFails "c1" "/bundle" "").defers =
        [.destroyOnFailure, .unmountOnFailure "/bundle/root/dev", .finalize "c1"] ∧
      Event.jailDestroy ∉ (createCommand.RunE saveFails "c1" "/bundle" "").trace ∧
      Event.stateRemove "c1" ∉ (createCommand.RunE saveFails "c1" "/bundle" "").trace := by
  decide

set_option maxRecDepth 100000 in
/-- C7, at the failing input: the specification declares one `createContainer`
hook and no `createRuntime` hooks, every step succeeds, `create` succeeds and
runs no hook at all; with an empty, non-nil `createRuntime` list the same hook
is run inside the jail. -/
theorem create_container_hooks_skipped :
    containerHookOnly.CreateRuntime = none ∧
      containerHookOnly.CreateContainer = some [⟨"/bin/true", [], [], none⟩] ∧
      (createCommand.RunE (succeedWith (devSpec false (some containerHookOnly)))
        "c1" "/bundle" "").err = none ∧
      execCalls (createCommand.RunE (succeedWith (devSpec false (some containerHookOnly)))
        "c1" "/bundle" "").trace = [] ∧
      execCalls (createCommand.RunE (succeedWith (devSpec false (some containerHookEmptyRuntime)))
        "c1" "/bundle" "").trace = [("/usr/sbin/jexec", ["c1", "/bin/true"])] := by
  decide

/-! ## The steps after the mounts make no mount call -/

theorem runDefers_mountCalls (w : CreateOutcomes) (defers : List Deferred) (f : Frame) :
    mountCalls (createCommand.runDefers w defers f).trace = mountCalls f.trace := by
  induction defers generalizing f with
  | nil => rfl
  | cons d rest ih =>
    rw [createCommand.runDefers, ih]
    cases d <;> cases hf : f.err <;>
      simp [createCommand.runDeferred, hf, Frame.log, mountCalls_append, mountCalls]

theorem validateConsole_mountCalls (w : CreateOutcomes) (terminal : Bool)
    (consoleSocket : String) (f : Frame) :
    mountCalls (createCommand.exitFrame
      (createCommand.validateConsole w terminal consoleSocket f)).trace = mountCalls f.trace := by
  unfold createCommand.validateConsole
  cases terminal <;> by_cases hs : consoleSocket = "" <;> cases hst : w.stat with
  | error err =>
    simp [hs, createCommand.exitFrame, Frame.log, Frame.ret, mountCalls_append, mountCalls]
  | ok isSocket =>
    cases isSocket <;>
      simp [hs, createCommand.exitFrame, Frame.log, Frame.ret, mountCalls_append, mountCalls]

theorem createJail_mountCalls (w : CreateOutcomes) (id rootPath : String) (cfg : Spec)
    (f : Frame) :
    mountCalls (createCommand.exitFrame (createCommand.createJail w id rootPath cfg f)).trace =
      mountCalls f.trace := by
  unfold createCommand.createJail
  cases hf : cfg.Freebsd with
  | none =>
    cases hj : w.jailCreate <;>
      simp [createCommand.exitFrame, Frame.log, Frame.ret, Frame.defer, mountCalls_append,
        mountCalls]
  | some freebsd =>
    by_cases hp : freebsd.JailOptions.Parent = ""
    · cases hj : w.jailCreate <;>
        simp [hp, createCommand.exitFrame, Frame.log, Frame.ret, Frame.defer,
          mountCalls_append, mountCalls]
    · cases hg : w.jailGetByName with
      | some err =>
        simp [hp, createCommand.exitFrame, Frame.log, Frame.ret, mountCalls_append, mountCalls]
      | none =>
        cases hc : w.createChildJail with
        | error err =>
          simp [hp, createCommand.exitFrame, Frame.log, Frame.ret, mountCalls_append,
            mountCalls]
        | ok jid =>
          cases hfe : f.err <;>
            simp [hp, hfe, createCommand.exitFrame, Frame.log, Frame.ret, Frame.defer,
              mountCalls_append, mountCalls]

theorem runCreateRuntime_mountCalls (w : CreateOutcomes) :
    ∀ (hooks : List Hook) (k : Nat) (f : Frame),
      mountCalls (createCommand.exitFrame (createCommand.runCreateRuntime w hooks k f)).trace =
        mountCalls f.trace := by
  intro hooks
  induction hooks with
  | nil => intro k f; rfl
  | cons hook rest ih =>
    intro k f
    unfold createCommand.runCreateRuntime
    cases hk : w.createRuntimeHook k with
    | some err =>
      simp [createCommand.exitFrame, Frame.log, Frame.ret, mountCalls_append, mountCalls]
    | none =>
      simp only [ih]
      simp [Frame.log, mountCalls_append, mountCalls]

theorem runCreateContainer_mountCalls (w : CreateOutcomes) (id : String) :
    ∀ (hooks : List Hook) (k : Nat) (f : Frame),
      mountCalls (createCommand.exitFrame
        (createCommand.runCreateContainer w id hooks k f)).trace = mountCalls f.trace := by
  intro hooks
  induction hooks with
  | nil => intro k f; rfl
  | cons hook rest ih =>
    intro k f
    unfold createCommand.runCreateContainer
    cases hk : w.createContainerHook k with
    | some err =>
      simp [createCommand.exitFrame, Frame.log, Frame.ret, mountCalls_append, mountCalls]
    | none =>
      simp only [ih]
      simp [Frame.log, mountCalls_append, mountCalls]

theorem runHooks_mountCalls (w : CreateOutcomes) (id : String) (cfg : Spec) (f : Frame) :
    mountCalls (createCommand.exitFrame (createCommand.runHooks w id cfg f)).trace =
      mountCalls f.trace := by
  unfold createCommand.runHooks
  cases hh : cfg.Hooks with
  | none => rfl
  | some hooks =>
    cases hr : hooks.CreateRuntime with
    | none => simp only [hr]; rfl
    | some createRuntime =>
      have h1 := runCreateRuntime_mountCalls w createRuntime 0 f
      cases h : createCommand.runCreateRuntime w createRuntime 0 f with
      | error f1 => rw [h] at h1; simpa only [hr, h] using h1
      | ok f1 =>
        rw [h] at h1
        simp only [createCommand.exitFrame] at h1
        simp only [hr, h, runCreateContainer_mountCalls, h1]

theorem setupEntrypoint_mountCalls (w : CreateOutcomes) (id consoleSocket : String)
    (process : Process) (f : Frame) :
    mountCalls (createCommand.exitFrame
      (createCommand.setupEntrypoint w id consoleSocket process f)).trace = mountCalls f.trace := by
  unfold createCommand.setupEntrypoint
  cases w.setupEntrypoint <;>
    simp [createCommand.exitFrame, Frame.log, Frame.ret, mountCalls_append, mountCalls]

theorem afterMounts_mountCalls (w : CreateOutcomes) (id consoleSocket rootPath : String)
    (cfg : Spec) (f : Frame) :
    mountCalls (createCommand.exitFrame
      (createCommand.afterMounts w id consoleSocket rootPath cfg f)).trace =
      mountCalls f.trace := by
  unfold createCommand.afterMounts
  cases hp : cfg.Process with
  | none => rfl
  | some process =>
    have h1 := validateConsole_mountCalls w process.Terminal consoleSocket f
    cases hv : createCommand.validateConsole w process.Terminal consoleSocket f with
    | error f2 => rw [hv] at h1; simpa only [hv] using h1
    | ok f2 =>
      rw [hv] at h1
      have h2 := createJail_mountCalls w id rootPath cfg f2
      cases hj : createCommand.createJail w id rootPath cfg f2 with
      | error f3 =>
        rw [hj] at h2
        simp only [createCommand.exitFrame] at h1 h2
        simp only [hv, hj, createCommand.exitFrame, h2, h1]
      | ok f3 =>
        rw [hj] at h2
        have h3 := runHooks_mountCalls w id cfg f3
        cases hh : createCommand.runHooks w id cfg f3 with
        | error f4 =>
          rw [hh] at h3
          simp only [createCommand.exitFrame] at h1 h2 h3
          simp only [hv, hj, hh, createCommand.exitFrame, h3, h2, h1]
        | ok f4 =>
          rw [hh] at h3
          simp only [createCommand.exitFrame] at h1 h2 h3
          simp only [hv, hj, hh, setupEntrypoint_mountCalls, h3, h2, h1]

theorem RunE_mountCalls (w : CreateOutcomes) (id bundle consoleSocket : String) (cfg : Spec)
    (st : State) (hsc : w.stateCreate = .ok st) (hst : w.storeConfig = none)
    (hload : w.loadConfig = .ok (some cfg)) :
    ∃ f : Frame, mountCalls f.trace = [] ∧
      mountCalls (createCommand.RunE w id bundle consoleSocket).trace =
        mountCalls (createCommand.exitFrame
          (createCommand.setupMounts w (effectiveRootSpec bundle cfg.Root)
            (declaredMounts cfg) 0 f)).trace := by
  refine ⟨(({ (createCommand.start.log (.stateCreate id bundle)).defer (.finalize id) with
    s := st } : Frame).log (.storeConfig id bundle)).log (.loadConfig id), ?_, ?_⟩
  · simp [createCommand.start, Frame.log, Frame.defer, mountCalls]
  · unfold createCommand.RunE createCommand.body
    simp only [hsc, hst, hload, createCommand_rootPath_eq, runDefers_mountCalls,
      createCommand.fromMounts, declaredMounts]
    cases hm : cfg.Mounts with
    | none => simp only [afterMounts_mountCalls, createCommand.setupMounts]; rfl
    | some mounts =>
      simp only []
      cases hs : createCommand.setupMounts w (effectiveRootSpec bundle cfg.Root) mounts 0 _ with
      | error f1 => rfl
      | ok f1 => simp only [afterMounts_mountCalls]; rfl

/-- C8. In a run of `create` that reaches the mounts (the state is claimed, the
specification stored and loaded): when every mount succeeds, the calls of
`m.Mount` are exactly the declared mounts in declared order, each at the
destination joined to the effective root, with the declared type and source and
the declared options, `ruleset=5` added after them for the destination `/dev`;
when the mount of index `j` is the first to fail, the calls are those of the
mounts before it, which succeeded, followed by the failed one, and no later
mount is attempted. -/
theorem create_mount_sequence (w : CreateOutcomes) (id bundle consoleSocket : String)
    (cfg : Spec) (st : State) (hsc : w.stateCreate = .ok st) (hst : w.storeConfig = none)
    (hload : w.loadConfig = .ok (some cfg)) :
    ((∀ i, i < (declaredMounts cfg).length → w.mount i = none) →
        mountCalls (createCommand.RunE w id bundle consoleSocket).trace =
          (declaredMounts cfg).map (fun sm =>
            (mountOf sm, filepath.Join (effectiveRootSpec bundle cfg.Root) sm.Destination,
              true))) ∧
      ∀ (j : Nat) (sm : Mount) (e : Error), (declaredMounts cfg)[j]? = some sm →
        (∀ i, i < j → w.mount i = none) → w.mount j = some e →
        mountCalls (createCommand.RunE w id bundle consoleSocket).trace =
          ((declaredMounts cfg).take j).map (fun sm =>
            (mountOf sm, filepath.Join (effectiveRootSpec bundle cfg.Root) sm.Destination, true))
          ++ [(mountOf sm, filepath.Join (effectiveRootSpec bundle cfg.Root) sm.Destination,
            false)] := by
  obtain ⟨f, hf, hrun⟩ := RunE_mountCalls w id bundle consoleSocket cfg st hsc hst hload
  constructor
  · intro hall
    rw [hrun, setupMounts_all_ok w _ (declaredMounts cfg) 0 f (by simpa using hall)]
    simp only [createCommand.exitFrame, mountCalls_append, hf, List.nil_append,
      mountCalls_mountEvents]
    rfl
  · intro j sm e hget hpre hfail
    rw [hrun, setupMounts_first_failure w _ (declaredMounts cfg) 0 f j sm e hget
      (by simpa using hpre) (by simpa using hfail)]
    simp only [createCommand.exitFrame, mountCalls_append, hf, List.nil_append,
      mountCalls_mountEvents]
    rfl

set_option maxRecDepth 100000 in
theorem create_mount_sequence_witness :
    mountCalls (createCommand.RunE (succeedWith twoMountSpec) "c1" "/bundle" "").trace =
        [(⟨"devfs", "devfs", ["ro", "ruleset=5"]⟩, "/bundle/root/dev", true),
         (⟨"tmpfs", "tmpfs", ["nosuid"]⟩, "/bundle/root/tmp", true)] ∧
      mountCalls (createCommand.RunE secondMountFails "c1" "/bundle" "").trace =
        [(⟨"devfs", "devfs", ["ro", "ruleset=5"]⟩, "/bundle/root/dev", true),
         (⟨"tmpfs", "tmpfs", ["nosuid"]⟩, "/bundle/root/tmp", false)] :=
  ⟨((create_mount_sequence (succeedWith twoMountSpec) "c1" "/bundle" "" twoMountSpec
      ⟨"c1", 0, 0, "", "/bundle"⟩ rfl rfl rfl).1 (fun _ _ => rfl)).trans (by decide),
   ((create_mount_sequence secondMountFails "c1" "/bundle" "" twoMountSpec
      ⟨"c1", 0, 0, "", "/bundle"⟩ rfl rfl rfl).2 1 ⟨"/tmp", "tmpfs", "tmpfs", ["nosuid"]⟩
      (.external "mount failed") (by decide) (by decide) (by decide)).trans (by decide)⟩

/-! ## The unmount loop of `delete` -/

theorem unmountLoop_calls (w : DeleteOutcomes) (rootPath : String) :
    ∀ (mounts : List Mount) (k : Nat) (failed : Option Error) (trace : List Event),
      unmountCalls (deleteCommand.unmountLoop w rootPath mounts k failed trace).2 =
        unmountCalls trace ++ mounts.map (targetOf rootPath) := by
  intro mounts
  induction mounts with
  | nil => intro k failed trace; simp [deleteCommand.unmountLoop]
  | cons sm rest ih =>
    intro k failed trace
    unfold deleteCommand.unmountLoop
    cases hk : w.unmountAll k <;>
      simp [ih, unmountCalls_append, unmountCalls, targetOf]

theorem unmountLoop_stateRemove (w : DeleteOutcomes) (rootPath id : String) :
    ∀ (mounts : List Mount) (k : Nat) (failed : Option Error) (trace : List Event),
      Event.stateRemove id ∈ (deleteCommand.unmountLoop w rootPath mounts k failed trace).2 ↔
        Event.stateRemove id ∈ trace := by
  intro mounts
  induction mounts with
  | nil => intro k failed trace; simp [deleteCommand.unmountLoop]
  | cons sm rest ih =>
    intro k failed trace
    unfold deleteCommand.unmountLoop
    cases hk : w.unmountAll k <;> simp [ih]

theorem unmountLoop_none (w : DeleteOutcomes) (rootPath : String) :
    ∀ (mounts : List Mount) (k : Nat) (failed : Option Error) (trace : List Event),
      (deleteCommand.unmountLoop w rootPath mounts k failed trace).1 = none ↔
        failed = none ∧ ∀ i, i < mounts.length → w.unmountAll (k + i) = none := by
  intro mounts
  induction mounts with
  | nil => intro k failed trace; simp [deleteCommand.unmountLoop]
  | cons sm rest ih =>
    intro k failed trace
    unfold deleteCommand.unmountLoop
    cases hk : w.unmountAll k with
    | some err =>
      simp only [ih]
      constructor
      · intro h; simp at h
      · intro h
        have := h.2 0 (by simp)
        rw [Nat.add_zero, hk] at this
        simp at this
    | none =>
      simp only [ih]
      constructor
      · rintro ⟨hf, hrest⟩
        refine ⟨hf, ?_⟩
        intro i hi
        cases i with
        | zero => simpa using hk
        | succ i =>
          have := hrest i (by simpa using hi)
          rwa [show k + 1 + i = k + (i + 1) by omega] at this
      · rintro ⟨hf, hall⟩
        refine ⟨hf, ?_⟩
        intro i hi
        have := hall (i + 1) (by simpa using hi)
        rwa [show k + 1 + i = k + (i + 1) by omega]

theorem unmountLoop_some (w : DeleteOutcomes) (rootPath : String) :
    ∀ (mounts : List Mount) (k : Nat) (failed : Option Error) (trace : List Event) (e : Error),
      (deleteCommand.unmountLoop w rootPath mounts k failed trace).1 = some e →
        failed = some e ∨ ∃ i, i < mounts.length ∧ w.unmountAll (k + i) = some e := by
  intro mounts
  induction mounts with
  | nil => intro k failed trace e h; left; simpa [deleteCommand.unmountLoop] using h
  | cons sm rest ih =>
    intro k failed trace e h
    unfold deleteCommand.unmountLoop at h
    cases hk : w.unmountAll k with
    | some err =>
      rw [hk] at h
      rcases ih _ _ _ _ h with h1 | ⟨i, hi, h1⟩
      · right
        refine ⟨0, by simp, ?_⟩
        rw [Nat.add_zero, hk, h1]
      · right
        refine ⟨i + 1, by simpa using hi, ?_⟩
        rwa [show k + (i + 1) = k + 1 + i by omega]
    | none =>
      rw [hk] at h
      rcases ih _ _ _ _ h with h1 | ⟨i, hi, h1⟩
      · left; exact h1
      · right
        refine ⟨i + 1, by simpa using hi, ?_⟩
        rwa [show k + (i + 1) = k + 1 + i by omega]

theorem fromUnmounts_spec (w : DeleteOutcomes) (id rootPath : String) (cfg : Spec)
    (trace : List Event) (hno : Event.stateRemove id ∉ trace) (hun : unmountCalls trace = []) :
    unmountCalls (deleteCommand.fromUnmounts w id rootPath cfg trace).trace =
        (declaredMounts cfg).map (targetOf rootPath) ∧
      (Event.stateRemove id ∈ (deleteCommand.fromUnmounts w id rootPath cfg trace).trace ↔
        ∀ i, i < (declaredMounts cfg).length → w.unmountAll i = none) ∧
      ((∀ i, i < (declaredMounts cfg).length → w.unmountAll i = none) →
        (deleteCommand.fromUnmounts w id rootPath cfg trace).err = w.stateRemove) ∧
      ((∃ i, i < (declaredMounts cfg).length ∧ w.unmountAll i ≠ none) →
        ∃ i e, i < (declaredMounts cfg).length ∧ w.unmountAll i = some e ∧
          (deleteCommand.fromUnmounts w id rootPath cfg trace).err = some e) := by
  unfold deleteCommand.fromUnmounts declaredMounts
  cases hm : cfg.Mounts with
  | none =>
    simp only [unmountCalls_append, hun, List.length_nil, List.map_nil]
    refine ⟨by simp [unmountCalls], by simp, by simp, ?_⟩
    rintro ⟨i, hi, _⟩
    exact absurd hi (Nat.not_lt_zero i)
  | some mounts =>
    simp only []
    have hcalls := unmountLoop_calls w rootPath mounts 0 none trace
    have hrem := unmountLoop_stateRemove w rootPath id mounts 0 none trace
    have hnone := unmountLoop_none w rootPath mounts 0 none trace
    have hsome := unmountLoop_some w rootPath mounts 0 none trace
    simp only [Nat.zero_add, true_and] at hnone hsome
    cases hl : (deleteCommand.unmountLoop w rootPath mounts 0 none trace).1 with
    | none =>
      have hall := hnone.mp hl
      simp only [unmountCalls_append, hcalls, hun, List.nil_append]
      refine ⟨by simp [unmountCalls], ?_, fun _ => trivial, ?_⟩
      · constructor
        · intro _; exact hall
        · intro _; simp
      · rintro ⟨i, hi, hne⟩
        exact absurd (hall i hi) hne
    | some e =>
      have hnot : ¬ ∀ i, i < mounts.length → w.unmountAll i = none := by
        intro hall
        rw [hnone.mpr hall] at hl
        exact Option.noConfusion hl
      simp only [hcalls, hun, List.nil_append]
      refine ⟨trivial, ?_, fun hall => absurd hall hnot, ?_⟩
      · constructor
        · intro hmem; exact absurd (hrem.mp hmem) hno
        · intro hall; exact absurd hall hnot
      · intro _
        rcases hsome e hl with h | ⟨i, hi, h⟩
        · exact Option.noConfusion h
        · exact ⟨i, e, hi, h, rfl⟩

/-- C9. In a run of `delete` that reaches the unmount phase, `mount.UnmountAll`
is called on the destination joined to the effective root for every declared
mount, in declared order, whatever the outcome of the earlier calls; the state
removal is called if and only if no unmount failed (its result is then the
result of `delete`); when at least one unmount failed, `delete` returns the
error of one of the failed unmounts. -/
theorem delete_unmount_draining (w : DeleteOutcomes) (id : String) (st : State) (cfg : Spec)
    (hrun : w.isRunning = .ok false) (hclean : w.cleanupEntrypoint = none)
    (hstat : w.statConf = none) (hdestroy : w.destroyJail = none)
    (hstate : w.stateLoad = .ok st) (hload : w.loadConfig = .ok (some cfg)) :
    unmountCalls (deleteCommand.RunE w id).trace =
        (declaredMounts cfg).map (fun sm =>
          filepath.Join (effectiveRootSpec st.Bundle cfg.Root) sm.Destination) ∧
      (Event.stateRemove id ∈ (deleteCommand.RunE w id).trace ↔
        ∀ i, i < (declaredMounts cfg).length → w.unmountAll i = none) ∧
      ((∀ i, i < (declaredMounts cfg).length → w.unmountAll i = none) →
        (deleteCommand.RunE w id).err = w.stateRemove) ∧
      ((∃ i, i < (declaredMounts cfg).length ∧ w.unmountAll i ≠ none) →
        ∃ i e, i < (declaredMounts cfg).length ∧ w.unmountAll i = some e ∧
          (deleteCommand.RunE w id).err = some e) := by
  have h := fromUnmounts_spec w id (effectiveRootSpec st.Bundle cfg.Root) cfg
    [.isRunning id, .cleanupEntrypoint id, .stat (ConfPath w.stateDir id),
      .destroyJail (ConfPath w.stateDir id) id, .stateLoad id, .loadConfig id]
    (by simp) (by simp [unmountCalls])
  unfold deleteCommand.RunE
  simp only [hrun, hclean, hstat, hdestroy, hstate, hload, deleteCommand_rootPath_eq,
    createCommand_rootPath_eq, List.cons_append, List.nil_append, Bool.false_eq_true,
    if_false]
  exact h

set_option maxRecDepth 100000 in
theorem delete_unmount_draining_witness :
    unmountCalls (deleteCommand.RunE
        (deleteOutcomes twoMountSpec (fun k => decide (k = 0))) "c1").trace =
        ["/bundle/root/dev", "/bundle/root/tmp"] ∧
      Event.stateRemove "c1" ∉ (deleteCommand.RunE
        (deleteOutcomes twoMountSpec (fun k => decide (k = 0))) "c1").trace ∧
      (deleteCommand.RunE (deleteOutcomes twoMountSpec (fun k => decide (k = 0))) "c1").err =
        some (.external "unmount failed") :=
  ⟨((delete_unmount_draining (deleteOutcomes twoMountSpec (fun k => decide (k = 0))) "c1"
      ⟨"c1", 7, 4242, "created", "/bundle"⟩ twoMountSpec rfl rfl rfl rfl rfl rfl).1).trans
      (by decide),
   fun hm => absurd ((delete_unmount_draining
      (deleteOutcomes twoMountSpec (fun k => decide (k = 0))) "c1"
      ⟨"c1", 7, 4242, "created", "/bundle"⟩ twoMountSpec rfl rfl rfl rfl rfl rfl).2.1.mp hm)
      (by decide),
   by decide⟩

/-! ## The running check of `delete` -/

/-- C13. When `jail.IsRunning` reports that the container is running, `delete`
fails with the error that the jail is not stopped, and the call of `IsRunning`
is the only call it makes: no entrypoint cleanup, no jail destruction, no
unmount and no state removal. -/
theorem delete_running_no_effect (w : DeleteOutcomes) (id : String)
    (hrun : w.isRunning = .ok true) :
    (deleteCommand.RunE w id).err = some (.errorf "delete: jail %s is not stopped" [.str id]) ∧
      (deleteCommand.RunE w id).panicking = false ∧
      (deleteCommand.RunE w id).trace = [.isRunning id] ∧
      Event.cleanupEntrypoint id ∉ (deleteCommand.RunE w id).trace ∧
      (∀ confPath, Event.destroyJail confPath id ∉ (deleteCommand.RunE w id).trace) ∧
      unmountCalls (deleteCommand.RunE w id).trace = [] ∧
      Event.stateRemove id ∉ (deleteCommand.RunE w id).trace := by
  have h : deleteCommand.RunE w id =
      ⟨some (.errorf "delete: jail %s is not stopped" [.str id]), false, [.isRunning id]⟩ := by
    unfold deleteCommand.RunE
    simp [hrun]
  rw [h]
  simp [unmountCalls]

theorem delete_running_no_effect_witness :
    (deleteCommand.RunE runningOutcomes "c1").err =
        some (.errorf "delete: jail %s is not stopped" [.str "c1"]) ∧
      (deleteCommand.RunE runningOutcomes "c1").trace = [.isRunning "c1"] :=
  ⟨(delete_running_no_effect runningOutcomes "c1" rfl).1,
   (delete_running_no_effect runningOutcomes "c1" rfl).2.2.1⟩

/-! ## The order of the calls of the entrypoint helper -/

theorem split_after {α : Type} (p : α → Bool) :
    ∀ (front back pre post : List α) (ev : α), (∀ a ∈ front, p a = false) →
      front ++ back = pre ++ ev :: post → p ev = true →
      ∃ mid, pre = front ++ mid ∧ back = mid ++ ev :: post := by
  intro front
  induction front with
  | nil => intro back pre post ev _ h _; exact ⟨pre, rfl, by simpa using h⟩
  | cons a rest ih =>
    intro back pre post ev hfront h hev
    cases pre with
    | nil =>
      simp only [List.cons_append, List.nil_append, List.cons.injEq] at h
      have := hfront a (List.mem_cons_self _ _)
      rw [h.1, hev] at this
      exact Bool.noConfusion this
    | cons b pre1 =>
      simp only [List.cons_append, List.cons.injEq] at h
      obtain ⟨mid, hmid, hback⟩ := ih back pre1 post ev
        (fun x hx => hfront x (List.mem_cons_of_mem _ hx)) h.2 hev
      exact ⟨mid, by rw [h.1, hmid]; rfl, hback⟩

theorem console_not_other (e : Action) (h : isConsole e = true) :
    isFifo e = false ∧ isCommit e = false := by
  cases e <;> simp_all [isConsole, isFifo, isCommit]

theorem dupLoop_console (w : EntrypointOutcomes) (fd : Int) :
    ∀ (l : List Nat) (t : List Action), (∀ e ∈ t, isConsole e = true) →
      ∀ e ∈ (entrypoint.dupLoop w fd l t).1, isConsole e = true := by
  intro l
  induction l with
  | nil => intro t ht; simpa [entrypoint.dupLoop] using ht
  | cons i rest ih =>
    intro t ht
    have hnext : ∀ e ∈ t ++ [Action.dup2 fd i], isConsole e = true := by
      intro e he
      rcases List.mem_append.mp he with h | h
      · exact ht e h
      · simp at h; rw [h]; rfl
    unfold entrypoint.dupLoop
    cases hd : w.dup2 i with
    | some err => simpa using hnext
    | none => simpa using ih _ hnext

theorem dupStdio_console (w : EntrypointOutcomes) (slavePath : String) (t : List Action)
    (ht : ∀ e ∈ t, isConsole e = true) :
    ∀ e ∈ (entrypoint.dupStdio w slavePath t).1, isConsole e = true := by
  have hext : ∀ l : List Action, (∀ e ∈ l, isConsole e = true) →
      ∀ e ∈ t ++ l, isConsole e = true := by
    intro l hl e he
    rcases List.mem_append.mp he with h | h
    · exact ht e h
    · exact hl e h
  unfold entrypoint.dupStdio
  cases ho : w.openSlave with
  | error err => exact hext _ (by simp [isConsole])
  | ok fd =>
    cases hs : w.setsid with
    | some err => exact hext _ (by simp [isConsole])
    | none =>
      by_cases hi : w.ioctlFails = true
      · simpa [hi] using hext [.openSlave slavePath, .setsid, .ioctlTty fd] (by simp [isConsole])
      · simpa [hi] using dupLoop_console w fd [0, 1, 2] _
          (hext [.openSlave slavePath, .setsid, .ioctlTty fd] (by simp [isConsole]))

theorem setupConsole_console (w : EntrypointOutcomes) :
    ∀ e ∈ (entrypoint.setupConsole w).1, isConsole e = true := by
  unfold entrypoint.setupConsole
  by_cases hc : w.consoleSocketEnv = ""
  · simp [hc, isConsole]
  · cases ha : w.atoi with
    | error err => simp [hc, isConsole]
    | ok socketFd =>
      cases hp : w.newPty with
      | error err => simp [hc, isConsole]
      | ok names =>
        obtain ⟨ptyName, slavePath⟩ := names
        cases hs : w.sendFd with
        | some err => simp [hc, isConsole]
        | none =>
          simp only [hc, if_false]
          intro e he
          rcases List.mem_append.mp he with h | h
          · exact dupStdio_console w slavePath _ (by simp [isConsole]) e h
          · simp only [List.mem_cons, List.mem_singleton, List.not_mem_nil, or_false] at h
            rcases h with rfl | rfl <;> rfl

theorem enterJail_shape (w : EntrypointOutcomes) (jid command : String) (argv : List String)
    (t : List Action) :
    ∃ tail, (entrypoint.enterJail w jid command argv t).1 = t ++ tail ∧
      ∀ e ∈ tail, isFifo e = false ∧ isConsole e = false := by
  unfold entrypoint.enterJail
  cases hc : w.chdir with
  | some err =>
    exact ⟨_, by simp only [List.append_assoc]; rfl,
      by simp [isFifo, isConsole, entrypoint.consoleSocketEnv]⟩
  | none =>
    cases hl : w.lookPath with
    | error err =>
      exact ⟨_, by simp only [List.append_assoc]; rfl,
        by simp [isFifo, isConsole, entrypoint.consoleSocketEnv]⟩
    | ok cmdpath =>
      cases he : w.exec with
      | some err =>
        exact ⟨_, by simp only [List.append_assoc]; rfl,
          by simp [isFifo, isConsole, entrypoint.consoleSocketEnv]⟩
      | none =>
        exact ⟨_, by simp only [List.append_assoc]; rfl,
          by simp [isFifo, isConsole, entrypoint.consoleSocketEnv]⟩

theorem syncFifo_shape (w : EntrypointOutcomes) (jid fifoPath command : String)
    (argv : List String) (t : List Action) :
    ∃ fifo tail, (entrypoint.syncFifo w jid fifoPath command argv t).1 = (t ++ fifo) ++ tail ∧
      (∀ e ∈ fifo, isCommit e = false ∧ isConsole e = false) ∧
      (∀ e ∈ tail, isFifo e = false ∧ isConsole e = false) ∧
      (fifoPath = "-" → fifo = []) ∧
      (fifoPath ≠ "-" → tail ≠ [] →
        Action.openFifo fifoPath true ∈ fifo ∧ ∃ fd, Action.writeFifo fd true ∈ fifo) := by
  unfold entrypoint.syncFifo
  by_cases hf : fifoPath = "-"
  · obtain ⟨tail, ht, htail⟩ := enterJail_shape w jid command argv t
    refine ⟨[], tail, by simpa [hf, entrypoint.skipExecFifo] using ht, by simp, htail,
      fun _ => rfl, fun h => absurd hf h⟩
  · cases ho : w.openFifo with
    | error err =>
      exact ⟨[.openFifo fifoPath false], [], by simp [hf, entrypoint.skipExecFifo],
        by simp [isCommit, isConsole], by simp, fun h => absurd h hf,
        fun _ h => absurd rfl h⟩
    | ok fifofd =>
      cases hw : w.writeFifo with
      | some err =>
        exact ⟨[.openFifo fifoPath true, .writeFifo fifofd false], [],
          by simp [hf, entrypoint.skipExecFifo], by simp [isCommit, isConsole], by simp,
          fun h => absurd h hf, fun _ h => absurd rfl h⟩
      | none =>
        obtain ⟨tail, ht, htail⟩ := enterJail_shape w jid command argv
          (t ++ [.openFifo fifoPath true, .writeFifo fifofd true])
        exact ⟨[.openFifo fifoPath true, .writeFifo fifofd true], tail,
          by simpa [hf, entrypoint.skipExecFifo] using ht, by simp [isCommit, isConsole], htail,
          fun h => absurd h hf, fun _ _ => ⟨by simp, fifofd, by simp⟩⟩

theorem main_shape (w : EntrypointOutcomes) (prog jid fifoPath command : String)
    (argv : List String) :
    ∃ console fifo tail,
      (entrypoint._main w (prog :: jid :: fifoPath :: command :: argv)).1 =
        (console ++ fifo) ++ tail ∧
      (∀ e ∈ console, isConsole e = true) ∧
      (∀ e ∈ fifo, isCommit e = false ∧ isConsole e = false) ∧
      (∀ e ∈ tail, isFifo e = false ∧ isConsole e = false) ∧
      (fifoPath = "-" → fifo = []) ∧
      (fifoPath ≠ "-" → tail ≠ [] →
        Action.openFifo fifoPath true ∈ fifo ∧ ∃ fd, Action.writeFifo fd true ∈ fifo) := by
  unfold entrypoint._main
  cases hc : (entrypoint.setupConsole w).2 with
  | some err =>
    exact ⟨(entrypoint.setupConsole w).1, [], [], by simp, setupConsole_console w, by simp,
      by simp, fun _ => rfl, fun _ h => absurd rfl h⟩
  | none =>
    obtain ⟨fifo, tail, ht, hfifo, htail, hskip, hready⟩ :=
      syncFifo_shape w jid fifoPath command argv (entrypoint.setupConsole w).1
    exact ⟨(entrypoint.setupConsole w).1, fifo, tail, ht, setupConsole_console w, hfifo, htail,
      hskip, hready⟩

/-- The order of the calls on the fifo with respect to the calls that enter the
jail and to the console calls. -/
theorem fifo_calls_order (w : EntrypointOutcomes) (prog jid fifoPath command : String)
    (argv : List String) :
    (fifoPath ≠ "-" → ∀ pre ev post,
        (entrypoint._main w (prog :: jid :: fifoPath :: command :: argv)).1 = pre ++ ev :: post →
        isCommit ev = true →
        Action.openFifo fifoPath true ∈ pre ∧ ∃ fd, Action.writeFifo fd true ∈ pre) ∧
      (∀ pre ev post,
        (entrypoint._main w (prog :: jid :: fifoPath :: command :: argv)).1 = pre ++ ev :: post →
        isFifo ev = true → ∀ e ∈ post, isConsole e = false) ∧
      (fifoPath = "-" →
        ∀ e ∈ (entrypoint._main w (prog :: jid :: fifoPath :: command :: argv)).1,
          isFifo e = false) ∧
      (∀ args : List String, args.length < 4 → (entrypoint._main w args).1 = []) := by
  obtain ⟨console, fifo, tail, ht, hconsole, hfifo, htail, hskip, hready⟩ :=
    main_shape w prog jid fifoPath command argv
  refine ⟨?_, ?_, ?_, ?_⟩
  · intro hne pre ev post hsplit hev
    rw [ht] at hsplit
    have hfront : ∀ a ∈ console ++ fifo, isCommit a = false := by
      intro a ha
      rcases List.mem_append.mp ha with h | h
      · exact (console_not_other a (hconsole a h)).2
      · exact (hfifo a h).1
    obtain ⟨mid, hpre, htl⟩ := split_after isCommit _ _ _ _ _ hfront hsplit hev
    have hnonempty : tail ≠ [] := by
      rw [htl]; simp
    obtain ⟨hopen, fd, hwrite⟩ := hready hne hnonempty
    rw [hpre]
    exact ⟨by simp [hopen], fd, by simp [hwrite]⟩
  · intro pre ev post hsplit hev e he
    rw [ht, List.append_assoc] at hsplit
    have hfront : ∀ a ∈ console, isFifo a = false :=
      fun a ha => (console_not_other a (hconsole a ha)).1
    obtain ⟨mid, _, htl⟩ := split_after isFifo _ _ _ _ _ hfront hsplit hev
    have hin : e ∈ fifo ++ tail := by
      rw [htl]; simp [he]
    rcases List.mem_append.mp hin with h | h
    · exact (hfifo e h).2
    · exact (htail e h).2
  · intro hskipped e he
    rw [ht, hskip hskipped] at he
    rcases List.mem_append.mp he with h | h
    · rw [List.append_nil] at h
      exact (console_not_other e (hconsole e h)).1
    · exact (htail e h).1
  · intro args hlen
    match args, hlen with
    | [], _ => rfl
    | [_], _ => rfl
    | [_, _], _ => rfl
    | [_, _, _], _ => rfl
    | _ :: _ :: _ :: _ :: _, h => simp at h; omega

theorem dupStdio_success (w : EntrypointOutcomes) (slavePath : String) (t : List Action)
    (h : (entrypoint.dupStdio w slavePath t).2 = none) :
    ∃ fd, w.openSlave = .ok fd ∧
      (entrypoint.dupStdio w slavePath t).1 =
        t ++ [.openSlave slavePath, .setsid, .ioctlTty fd, .dup2 fd 0, .dup2 fd 1, .dup2 fd 2] := by
  unfold entrypoint.dupStdio at h ⊢
  cases ho : w.openSlave with
  | error err => simp [ho] at h
  | ok fd =>
    cases hs : w.setsid with
    | some err => simp [ho, hs] at h
    | none =>
      by_cases hi : w.ioctlFails = true
      · simp [ho, hs, hi] at h
      · cases h0 : w.dup2 0 with
        | some err => simp [ho, hs, hi, entrypoint.dupLoop, h0] at h
        | none =>
          cases h1 : w.dup2 1 with
          | some err => simp [ho, hs, hi, entrypoint.dupLoop, h0, h1] at h
          | none =>
            cases h2 : w.dup2 2 with
            | some err => simp [ho, hs, hi, entrypoint.dupLoop, h0, h1, h2] at h
            | none => exact ⟨fd, rfl, by simp [hs, hi, entrypoint.dupLoop, h0, h1, h2]⟩

/-- A console setup that is requested and returns no error has made all its
calls: the variable is read and erased, the descriptor parsed and wrapped, the
pty allocated and its master sent over the socket, the slave opened, made the
controlling terminal of a new session and duplicated onto the descriptors 0, 1
and 2, and the pty and the socket closed. -/
theorem setupConsole_success (w : EntrypointOutcomes) (hreq : w.consoleSocketEnv ≠ "")
    (h : (entrypoint.setupConsole w).2 = none) :
    ∃ (socketFd : Int) (ptyName slavePath : String) (fd : Int),
      w.atoi = .ok socketFd ∧ w.newPty = .ok (ptyName, slavePath) ∧ w.sendFd = none ∧
      w.openSlave = .ok fd ∧
      (entrypoint.setupConsole w).1 =
        [.getenv entrypoint.consoleSocketEnv, .unsetenv entrypoint.consoleSocketEnv,
          .atoi w.consoleSocketEnv, .newFile socketFd, .newPty, .sendFd ptyName,
          .openSlave slavePath, .setsid, .ioctlTty fd, .dup2 fd 0, .dup2 fd 1, .dup2 fd 2,
          .closePty, .closeSocket] := by
  unfold entrypoint.setupConsole at h ⊢
  cases ha : w.atoi with
  | error err => simp [hreq, ha] at h
  | ok socketFd =>
    cases hp : w.newPty with
    | error err => simp [hreq, ha, hp] at h
    | ok names =>
      obtain ⟨ptyName, slavePath⟩ := names
      cases hs : w.sendFd with
      | some err => simp [hreq, ha, hp, hs] at h
      | none =>
        simp only [hreq, ha, hp, hs, if_false] at h
        obtain ⟨fd, hfd, htrace⟩ := dupStdio_success w slavePath _ h
        refine ⟨socketFd, ptyName, slavePath, fd, rfl, rfl, rfl, hfd, ?_⟩
        simp only [hreq, if_false, htrace]
        rfl

theorem not_fifo_not_open (e : Action) (h : isFifo e = false) : isOpenFifo e = false := by
  cases e <;> simp_all [isFifo, isOpenFifo]

theorem main_open_first (w : EntrypointOutcomes) (prog jid fifoPath command : String)
    (argv : List String) :
    (∀ e ∈ (entrypoint._main w (prog :: jid :: fifoPath :: command :: argv)).1,
        isOpenFifo e = false) ∨
      ((entrypoint.setupConsole w).2 = none ∧ ∃ ok rest,
        (entrypoint._main w (prog :: jid :: fifoPath :: command :: argv)).1 =
          (entrypoint.setupConsole w).1 ++ Action.openFifo fifoPath ok :: rest ∧
        ∀ e ∈ rest, isOpenFifo e = false) := by
  have hconsole : ∀ e ∈ (entrypoint.setupConsole w).1, isOpenFifo e = false :=
    fun e he => not_fifo_not_open e (console_not_other e (setupConsole_console w e he)).1
  unfold entrypoint._main
  cases hc : (entrypoint.setupConsole w).2 with
  | some err => left; simpa using hconsole
  | none =>
    simp only []
    unfold entrypoint.syncFifo
    by_cases hf : fifoPath = "-"
    · left
      obtain ⟨tail, ht, htail⟩ := enterJail_shape w jid command argv (entrypoint.setupConsole w).1
      simp only [hf, entrypoint.skipExecFifo, ne_eq, not_true_eq_false, if_false, ht]
      intro e he
      rcases List.mem_append.mp he with h | h
      · exact hconsole e h
      · exact not_fifo_not_open e (htail e h).1
    · right
      refine ⟨trivial, ?_⟩
      cases ho : w.openFifo with
      | error err =>
        exact ⟨false, [], by simp [hf, entrypoint.skipExecFifo], by simp⟩
      | ok fifofd =>
        cases hw : w.writeFifo with
        | some err =>
          exact ⟨true, [.writeFifo fifofd false], by simp [hf, entrypoint.skipExecFifo],
            by simp [isOpenFifo]⟩
        | none =>
          obtain ⟨tail, ht, htail⟩ := enterJail_shape w jid command argv
            ((entrypoint.setupConsole w).1 ++ [.openFifo fifoPath true, .writeFifo fifofd true])
          refine ⟨true, .writeFifo fifofd true :: tail,
            by simp [hf, entrypoint.skipExecFifo, ht], ?_⟩
          intro e he
          rcases List.mem_cons.mp he with h | h
          · rw [h]; rfl
          · exact not_fifo_not_open e (htail e h).1

/-- The calls made before the fifo is opened are exactly those of the console
setup, which has returned no error. -/
theorem main_console_before_open (w : EntrypointOutcomes) (prog jid fifoPath command : String)
    (argv : List String) (pre post : List Action) (ev : Action)
    (hsplit : (entrypoint._main w (prog :: jid :: fifoPath :: command :: argv)).1 =
      pre ++ ev :: post) (hev : isOpenFifo ev = true) :
    pre = (entrypoint.setupConsole w).1 ∧ (entrypoint.setupConsole w).2 = none := by
  have hconsole : ∀ e ∈ (entrypoint.setupConsole w).1, isOpenFifo e = false :=
    fun e he => not_fifo_not_open e (console_not_other e (setupConsole_console w e he)).1
  rcases main_open_first w prog jid fifoPath command argv with hnone | ⟨hok, ok, rest, ht, hrest⟩
  · have := hnone ev (by rw [hsplit]; simp)
    rw [hev] at this
    exact Bool.noConfusion this
  · rw [ht] at hsplit
    obtain ⟨mid, hpre, htl⟩ := split_after isOpenFifo _ _ _ _ _ hconsole hsplit hev
    cases mid with
    | nil => exact ⟨by simpa using hpre, hok⟩
    | cons m mid1 =>
      simp only [List.cons_append, List.cons.injEq] at htl
      have := hrest ev (by rw [htl.2]; simp)
      rw [hev] at this
      exact Bool.noConfusion this

/-- C11. In every run of the helper: with a fifo path other than `-`, every call
that attaches to the jail, changes directory or replaces the process image comes
after the fifo was opened for writing and the readiness byte written, both with
success; no call of the console setup comes after a call on the fifo; with the
fifo path `-` no call on the fifo is made; with fewer than four arguments the
helper makes no call at all.  The calls made before the fifo is opened are
exactly those of the console setup, which has returned no error; when the
console is requested (the variable `__RUNJ_CONSOLE_SOCKET` is not empty) they
are the whole setup: the variable read and erased, the descriptor parsed and
wrapped, the pty allocated and sent over the socket, the slave opened, made the
controlling terminal of a new session and duplicated onto the descriptors 0, 1
and 2, the pty and the socket closed. -/
theorem main_fifo_order (w : EntrypointOutcomes) (prog jid fifoPath command : String)
    (argv : List String) :
    (fifoPath ≠ "-" → ∀ pre ev post,
        (entrypoint._main w (prog :: jid :: fifoPath :: command :: argv)).1 = pre ++ ev :: post →
        isCommit ev = true →
        Action.openFifo fifoPath true ∈ pre ∧ ∃ fd, Action.writeFifo fd true ∈ pre) ∧
      (∀ pre ev post,
        (entrypoint._main w (prog :: jid :: fifoPath :: command :: argv)).1 = pre ++ ev :: post →
        isFifo ev = true → ∀ e ∈ post, isConsole e = false) ∧
      (fifoPath = "-" →
        ∀ e ∈ (entrypoint._main w (prog :: jid :: fifoPath :: command :: argv)).1,
          isFifo e = false) ∧
      (∀ args : List String, args.length < 4 → (entrypoint._main w args).1 = []) ∧
      (∀ pre ev post,
        (entrypoint._main w (prog :: jid :: fifoPath :: command :: argv)).1 = pre ++ ev :: post →
        isOpenFifo ev = true →
        pre = (entrypoint.setupConsole w).1 ∧ (entrypoint.setupConsole w).2 = none ∧
        (w.consoleSocketEnv ≠ "" →
          ∃ (socketFd : Int) (ptyName slavePath : String) (fd : Int),
            w.atoi = .ok socketFd ∧ w.newPty = .ok (ptyName, slavePath) ∧ w.sendFd = none ∧
            w.openSlave = .ok fd ∧
            pre =
              [.getenv "__RUNJ_CONSOLE_SOCKET", .unsetenv "__RUNJ_CONSOLE_SOCKET",
                .atoi w.consoleSocketEnv, .newFile socketFd, .newPty, .sendFd ptyName,
                .openSlave slavePath, .setsid, .ioctlTty fd, .dup2 fd 0, .dup2 fd 1,
                .dup2 fd 2, .closePty, .closeSocket])) := by
  obtain ⟨h1, h2, h3, h4⟩ := fifo_calls_order w prog jid fifoPath command argv
  refine ⟨h1, h2, h3, h4, ?_⟩
  intro pre ev post hsplit hev
  obtain ⟨hpre, hok⟩ := main_console_before_open w prog jid fifoPath command argv pre post ev
    hsplit hev
  refine ⟨hpre, hok, ?_⟩
  intro hreq
  obtain ⟨socketFd, ptyName, slavePath, fd, ha, hp, hs, ho, htrace⟩ :=
    setupConsole_success w hreq hok
  exact ⟨socketFd, ptyName, slavePath, fd, ha, hp, hs, ho, by rw [hpre, htrace]; rfl⟩

set_option maxRecDepth 100000 in
theorem main_fifo_order_witness :
    (Action.openFifo "/run/exec.fifo" true ∈
        [Action.getenv "__RUNJ_CONSOLE_SOCKET", .unsetenv "__RUNJ_CONSOLE_SOCKET", .atoi "3",
          .newFile 3, .newPty, .sendFd "/dev/pts/1", .openSlave "/dev/pts/1", .setsid,
          .ioctlTty 5, .dup2 5 0, .dup2 5 1, .dup2 5 2, .closePty, .closeSocket,
          .openFifo "/run/exec.fifo" true, .writeFifo 4 true, .jailGetid "c1" 2, .free] ∧
      ∃ fd, Action.writeFifo fd true ∈
        [Action.getenv "__RUNJ_CONSOLE_SOCKET", .unsetenv "__RUNJ_CONSOLE_SOCKET", .atoi "3",
          .newFile 3, .newPty, .sendFd "/dev/pts/1", .openSlave "/dev/pts/1", .setsid,
          .ioctlTty 5, .dup2 5 0, .dup2 5 1, .dup2 5 2, .closePty, .closeSocket,
          .openFifo "/run/exec.fifo" true, .writeFifo 4 true, .jailGetid "c1" 2, .free]) ∧
      ([Action.getenv "__RUNJ_CONSOLE_SOCKET", .unsetenv "__RUNJ_CONSOLE_SOCKET", .atoi "3",
          .newFile 3, .newPty, .sendFd "/dev/pts/1", .openSlave "/dev/pts/1", .setsid,
          .ioctlTty 5, .dup2 5 0, .dup2 5 1, .dup2 5 2, .closePty, .closeSocket] =
        (entrypoint.setupConsole consoleRun).1 ∧
        (entrypoint.setupConsole consoleRun).2 = none ∧
        (consoleRun.consoleSocketEnv ≠ "" →
          ∃ (socketFd : Int) (ptyName slavePath : String) (fd : Int),
            consoleRun.atoi = .ok socketFd ∧ consoleRun.newPty = .ok (ptyName, slavePath) ∧
            consoleRun.sendFd = none ∧ consoleRun.openSlave = .ok fd ∧
            [Action.getenv "__RUNJ_CONSOLE_SOCKET", .unsetenv "__RUNJ_CONSOLE_SOCKET",
              .atoi "3", .newFile 3, .newPty, .sendFd "/dev/pts/1", .openSlave "/dev/pts/1",
              .setsid, .ioctlTty 5, .dup2 5 0, .dup2 5 1, .dup2 5 2, .closePty, .closeSocket] =
              [.getenv "__RUNJ_CONSOLE_SOCKET", .unsetenv "__RUNJ_CONSOLE_SOCKET",
                .atoi consoleRun.consoleSocketEnv, .newFile socketFd, .newPty, .sendFd ptyName,
                .openSlave slavePath, .setsid, .ioctlTty fd, .dup2 fd 0, .dup2 fd 1,
                .dup2 fd 2, .closePty, .closeSocket])) :=
  ⟨(main_fifo_order consoleRun "runj-entrypoint" "c1" "/run/exec.fifo" "/bin/sh" []).1
      (by decide)
      [.getenv "__RUNJ_CONSOLE_SOCKET", .unsetenv "__RUNJ_CONSOLE_SOCKET", .atoi "3",
        .newFile 3, .newPty, .sendFd "/dev/pts/1", .openSlave "/dev/pts/1", .setsid,
        .ioctlTty 5, .dup2 5 0, .dup2 5 1, .dup2 5 2, .closePty, .closeSocket,
        .openFifo "/run/exec.fifo" true, .writeFifo 4 true, .jailGetid "c1" 2, .free]
      (.jailAttach 2 0)
      [.getenv "_RUNJENTRYPOINTCWD", .unsetenv "_RUNJENTRYPOINTCWD", .chdir "/",
        .lookPath "/bin/sh", .exec "/bin/sh" ["/bin/sh"]]
      (by decide) rfl,
   (main_fifo_order consoleRun "runj-entrypoint" "c1" "/run/exec.fifo" "/bin/sh" []).2.2.2.2
      [.getenv "__RUNJ_CONSOLE_SOCKET", .unsetenv "__RUNJ_CONSOLE_SOCKET", .atoi "3",
        .newFile 3, .newPty, .sendFd "/dev/pts/1", .openSlave "/dev/pts/1", .setsid,
        .ioctlTty 5, .dup2 5 0, .dup2 5 1, .dup2 5 2, .closePty, .closeSocket]
      (.openFifo "/run/exec.fifo" true)
      [.writeFifo 4 true, .jailGetid "c1" 2, .free, .jailAttach 2 0,
        .getenv "_RUNJENTRYPOINTCWD", .unsetenv "_RUNJENTRYPOINTCWD", .chdir "/",
        .lookPath "/bin/sh", .exec "/bin/sh" ["/bin/sh"]]
      (by decide) rfl⟩

/-! ## The exit statuses of the entrypoint helper -/

/-- The statuses of the steps whose failure the helper tests: 1 for fewer than
four arguments, 2 for the console setup, 3 and 4 for the opening of the fifo and
the write to it, and no call follows the failed one. -/
theorem main_exit_statuses (w : EntrypointOutcomes) (prog jid fifoPath command : String)
    (argv : List String) :
    (∀ args : List String, args.length < 4 →
        entrypoint._main w args = ([], .status 1 (some entrypoint.usage))) ∧
      (∀ err, (entrypoint.setupConsole w).2 = some err →
        entrypoint._main w (prog :: jid :: fifoPath :: command :: argv) =
          ((entrypoint.setupConsole w).1, .status 2 (some err))) ∧
      (∀ err, (entrypoint.setupConsole w).2 = none → fifoPath ≠ "-" →
        w.openFifo = .error err →
        entrypoint._main w (prog :: jid :: fifoPath :: command :: argv) =
          ((entrypoint.setupConsole w).1 ++ [.openFifo fifoPath false],
            .status 3 (some (.wrapf err "failed to open fifo: %w" [])))) ∧
      (∀ fd err, (entrypoint.setupConsole w).2 = none → fifoPath ≠ "-" →
        w.openFifo = .ok fd → w.writeFifo = some err →
        entrypoint._main w (prog :: jid :: fifoPath :: command :: argv) =
          ((entrypoint.setupConsole w).1 ++ [.openFifo fifoPath true, .writeFifo fd false],
            .status 4 (some (.wrapf err "failed to write to fifo: %w" [])))) := by
  refine ⟨?_, ?_, ?_, ?_⟩
  · intro args hlen
    match args, hlen with
    | [], _ => rfl
    | [_], _ => rfl
    | [_, _], _ => rfl
    | [_, _, _], _ => rfl
    | _ :: _ :: _ :: _ :: _, h => simp at h; omega
  · intro err h
    simp [entrypoint._main, h]
  · intro err h hne ho
    simp [entrypoint._main, entrypoint.syncFifo, entrypoint.skipExecFifo, h, hne, ho]
  · intro fd err h hne ho hw
    simp [entrypoint._main, entrypoint.syncFifo, entrypoint.skipExecFifo, h, hne, ho, hw]

/-- The statuses of the steps after the attach: 5 when the change of directory
fails, 6 when the lookup of the program or the exec fails. -/
theorem enterJail_exit_statuses (w : EntrypointOutcomes) (jid command : String)
    (argv : List String) (t : List Action) :
    (∀ err, w.chdir = some err →
        (entrypoint.enterJail w jid command argv t).2 =
          .status 5 (some (.wrapf err "could not change into: %s, %w" []))) ∧
      (∀ err, w.chdir = none → w.lookPath = .error err →
        (entrypoint.enterJail w jid command argv t).2 =
          .status 6 (some (.wrapf err "Could not find start command %w" []))) ∧
      (∀ cmdpath err, w.chdir = none → w.lookPath = .ok cmdpath → w.exec = some err →
        (entrypoint.enterJail w jid command argv t).2 =
          .status 6 (some (.wrapf err "failed to exec: %w" []))) := by
  refine ⟨?_, ?_, ?_⟩
  · intro err h; simp [entrypoint.enterJail, h]
  · intro err h hl; simp [entrypoint.enterJail, h, hl]
  · intro cmdpath err h hl he; simp [entrypoint.enterJail, h, hl, he]

set_option maxRecDepth 100000 in
/-- C12, at the failing input: the jail `nojail` cannot be resolved (`jail_getid`
returns -1) and `jail_attach` fails (returns -1).  The helper does not terminate:
both results are dropped, it goes on to change directory, look the program up
and replace its process image with `/bin/sh`, outside any jail. -/
theorem main_attach_failure_ignored :
    attachFails.jailGetid = -1 ∧ attachFails.jailAttach = -1 ∧
      entrypoint._main attachFails ["runj-entrypoint", "nojail", "-", "/bin/sh"] =
        ([.getenv "__RUNJ_CONSOLE_SOCKET", .jailGetid "nojail" (-1), .free,
          .jailAttach (-1) (-1), .getenv "_RUNJENTRYPOINTCWD", .unsetenv "_RUNJENTRYPOINTCWD",
          .chdir "/", .lookPath "/bin/sh", .exec "/bin/sh" ["/bin/sh"]],
         .replaced "/bin/sh" ["/bin/sh"]) := by
  decide

/-! ## `create` followed by `delete` -/

/-- No call of `create` or `delete` writes the jail configuration of the id. -/
theorem after_no_jailConf (id : String) (trace : List Event) (world : World)
    (h : (id, Artifact.jailConf) ∉ world.artifacts) :
    (id, Artifact.jailConf) ∉ (after id world trace).artifacts := by
  unfold after
  induction trace generalizing world with
  | nil => exact h
  | cons ev rest ih =>
    rw [List.foldl_cons]
    apply ih
    cases ev with
    | mount m target ok => cases ok <;> simpa [effect] using h
    | jailCreate config ok => cases ok <;> simpa [effect] using h
    | createChildJail parent config ok => cases ok <;> simpa [effect] using h
    | stateRemove rid =>
      simp only [effect, List.mem_filter]
      exact fun hmem => h hmem.1
    | _ => simpa [effect] using h

/-- Whatever `create` did, a `delete` that finds no jail configuration for the
id returns the error of an invalid jail id after the entrypoint cleanup, and
destroys no jail, unmounts nothing and removes no state. -/
theorem delete_without_jailConf (world : World) (id : String) (st : State) (cfg : Spec)
    (h : (id, Artifact.jailConf) ∉ world.artifacts) :
    deleteCommand.RunE (deleteIn world id st cfg) id =
      ⟨some (.errorsNew "invalid jail id provided"), false,
        [.isRunning id, .cleanupEntrypoint id,
          .stat (ConfPath (fun id => "/var/lib/runj/jails/" ++ id) id)]⟩ := by
  unfold deleteCommand.RunE deleteIn
  simp [h]

set_option maxRecDepth 100000 in
/-- C14, at the failing input: `create c1 /bundle` succeeds with every call
succeeding and leaves the state directory, the specification copy, the fifo and
the record, the mount on `/bundle/root/dev` and the jail, but no jail
configuration.  The following `delete c1` of the stopped container fails with
the error of an invalid jail id and leaves everything in place.  Had the jail
configuration existed, the same `delete` would have restored the empty
condition. -/
theorem delete_after_create_fails :
    (createCommand.RunE (succeedWith (devSpec false none)) "c1" "/bundle" "").err = none ∧
      createdWorld =
        ⟨[("c1", .stateDir), ("c1", .specCopy), ("c1", .execFifo), ("c1", .record)],
          ["/bundle/root/dev"], ["c1"]⟩ ∧
      (deleteCommand.RunE (deleteIn createdWorld "c1" createdState (devSpec false none))
        "c1").err = some (.errorsNew "invalid jail id provided") ∧
      (deleteCommand.RunE (deleteIn createdWorld "c1" createdState (devSpec false none))
        "c1").trace =
        [.isRunning "c1", .cleanupEntrypoint "c1", .stat "/var/lib/runj/jails/c1/jail.conf"] ∧
      after "c1" createdWorld
        (deleteCommand.RunE (deleteIn createdWorld "c1" createdState (devSpec false none))
          "c1").trace = createdWorld ∧
      (deleteCommand.RunE
        (deleteIn { createdWorld with
            artifacts := createdWorld.artifacts ++ [("c1", .jailConf)] }
          "c1" createdState (devSpec false none)) "c1").err = none ∧
      after "c1" { createdWorld with artifacts := createdWorld.artifacts ++ [("c1", .jailConf)] }
        (deleteCommand.RunE
          (deleteIn { createdWorld with
              artifacts := createdWorld.artifacts ++ [("c1", .jailConf)] }
            "c1" createdState (devSpec false none)) "c1").trace = emptyWorld := by
  decide

end Runj
